import Mathlib

/-!
# Verification of the spectrogram generation and rendering engine

Shallow embedding of the TypeScript sources (`src/spectrogram.ts`,
`src/renderer.ts`, `src/frequency-mapping.ts`, `src/window-functions.ts`,
`src/color-scales.ts`) of the `spectrogram` repository, together with
theorems settling the frozen claims about it.

Numbers held in JS `number` / `Float32Array` values are modelled as real
numbers; array indices and sizes are natural numbers.  The FFT itself is
an external collaborator consumed through the `FFTContext` interface and
is therefore modelled as an opaque function from the input buffer to the
output buffer.
-/

namespace Spectro

/-! ## JavaScript numeric primitives -/

/-- Truncation toward zero, the behaviour of JS `Math.trunc` and the first
step of the `| 0` coercion. -/
noncomputable def jsTrunc (x : ℝ) : ℤ :=
  if 0 ≤ x then ⌊x⌋ else ⌈x⌉

/-- The JS `| 0` coercion: truncate toward zero, then wrap into the signed
32-bit range (ToInt32). -/
noncomputable def jsToInt32 (x : ℝ) : ℤ :=
  (jsTrunc x).bmod (2 ^ 32)

/-- JS `Math.round`: round half toward positive infinity. -/
noncomputable def jsRound (x : ℝ) : ℤ := ⌊x + 1 / 2⌋

/-- The clamp `v < 0 ? 0 : v > 1 ? 1 : v` used for normalized intensities. -/
noncomputable def clamp01 (v : ℝ) : ℝ :=
  if v < 0 then 0 else if v > 1 then 1 else v

theorem jsTrunc_of_nonneg {x : ℝ} (h : 0 ≤ x) : jsTrunc x = ⌊x⌋ := by
  simp [jsTrunc, h]

theorem jsTrunc_of_neg {x : ℝ} (h : x < 0) : jsTrunc x = ⌈x⌉ := by
  simp [jsTrunc, not_le.mpr h]

theorem clamp01_mem (v : ℝ) : clamp01 v ∈ Set.Icc (0 : ℝ) 1 := by
  unfold clamp01
  split_ifs with h1 h2
  · exact ⟨le_refl 0, zero_le_one⟩
  · exact ⟨zero_le_one, le_refl 1⟩
  · exact ⟨not_lt.mp h1, not_lt.mp h2⟩

theorem clamp01_nonneg (v : ℝ) : 0 ≤ clamp01 v := (clamp01_mem v).1

theorem clamp01_le_one (v : ℝ) : clamp01 v ≤ 1 := (clamp01_mem v).2

/-- An integer whose absolute value is below `2^31` is a fixed point of the
ToInt32 wrap. -/
theorem Int.bmod_eq_self_of_abs_lt {n : ℤ} (h : n.natAbs < 2 ^ 31) :
    n.bmod (2 ^ 32) = n := by
  unfold Int.bmod
  rw [show ((2 ^ 32 : ℕ) : ℤ) = (4294967296 : ℤ) by norm_num]
  simp only []
  split <;> omega

/-! ## `window-functions.ts` -/

/-- The five supported window types. -/
inductive WindowType
  | hann | hamming | blackman | blackmanHarris | rectangular
  deriving DecidableEq

/-- The three coefficient variants. -/
inductive WindowVariant
  | standard | derivative | timeRamped
  deriving DecidableEq

open Real in
/-- Source `WINDOW_FUNCTIONS`: the standard window coefficient at index `i` for
window length `N`. -/
noncomputable def WINDOW_FUNCTIONS : WindowType → ℕ → ℕ → ℝ
  | .hann, i, N => 0.5 * (1 - cos ((2 * π * i) / (N - 1)))
  | .hamming, i, N => 0.54 - 0.46 * cos ((2 * π * i) / (N - 1))
  | .blackman, i, N =>
      0.42 - 0.5 * cos ((2 * π * i) / (N - 1)) + 0.08 * cos ((4 * π * i) / (N - 1))
  | .blackmanHarris, i, N =>
      0.35875 - 0.48829 * cos ((2 * π * i) / (N - 1))
        + 0.14128 * cos ((4 * π * i) / (N - 1))
        - 0.01168 * cos ((6 * π * i) / (N - 1))
  | .rectangular, _, _ => 1

open Real in
/-- Source `WINDOW_DERIVATIVES`: analytic `d/di` of the corresponding standard
window. -/
noncomputable def WINDOW_DERIVATIVES : WindowType → ℕ → ℕ → ℝ
  | .hann, i, N => (π / (N - 1)) * sin ((2 * π * i) / (N - 1))
  | .hamming, i, N => 0.46 * (2 * π / (N - 1)) * sin ((2 * π * i) / (N - 1))
  | .blackman, i, N =>
      0.5 * (2 * π / (N - 1)) * sin ((2 * π * i) / (N - 1))
        - 0.08 * (4 * π / (N - 1)) * sin ((4 * π * i) / (N - 1))
  | .blackmanHarris, i, N =>
      0.48829 * (2 * π / (N - 1)) * sin ((2 * π * i) / (N - 1))
        - 0.14128 * (4 * π / (N - 1)) * sin ((4 * π * i) / (N - 1))
        + 0.01168 * (6 * π / (N - 1)) * sin ((6 * π * i) / (N - 1))
  | .rectangular, _, _ => 0

/-- Source `WINDOW_TIME_RAMPED`: `(i - (N-1)/2) * h(i)`. -/
noncomputable def WINDOW_TIME_RAMPED (t : WindowType) (i N : ℕ) : ℝ :=
  match t with
  | .rectangular => (i : ℝ) - ((N : ℝ) - 1) / 2
  | _ => ((i : ℝ) - ((N : ℝ) - 1) / 2) * WINDOW_FUNCTIONS t i N

/-- Source `WINDOW_COHERENT_GAIN` fixed table. -/
noncomputable def WINDOW_COHERENT_GAIN : WindowType → ℝ
  | .hann => 0.5
  | .hamming => 0.54
  | .blackman => 0.42
  | .blackmanHarris => 0.35875
  | .rectangular => 1.0

/-- Source `getWindowCoefficients`: the cached coefficient table is, semantically,
the length-`size` array of per-index coefficient values (the cache only
memoizes, it never changes the value). -/
noncomputable def getWindowCoefficients (t : WindowType) (size : ℕ)
    (variant : WindowVariant) : List ℝ :=
  List.ofFn (n := size) fun i =>
    match variant with
    | .derivative => WINDOW_DERIVATIVES t i size
    | .timeRamped => WINDOW_TIME_RAMPED t i size
    | .standard => WINDOW_FUNCTIONS t i size

/-- Source `applyWindowCoefficients`: element-wise product over the frame's
indices. -/
noncomputable def applyWindowCoefficients (frame coefficients : List ℝ) :
    List ℝ :=
  List.ofFn (n := frame.length) fun i => frame.get i * coefficients.getD i 0

/-! ## The `FFTContext` interface (external collaborator)

The transform is out of scope: any conforming implementation may be
substituted.  We model a context by its size and an opaque function from
the written input buffer to the resulting output buffer (interleaved
re/im pairs). -/

structure FFTContext where
  size : ℕ
  isReal : Bool
  fft : List ℝ → List ℝ

/-- Source `runFFT`: fill the input buffer with `data`, execute, and read the
output buffer; reading entry `k` of the copied complex output. -/
noncomputable def runFFT (ctx : FFTContext) (data : List ℝ) (k : ℕ) : ℝ :=
  (ctx.fft data).getD k 0

/-! ## `spectrogram.ts`: shared helpers -/

/-- Source `DB_SCALE_FACTOR = 20 / Math.LN10`. -/
noncomputable def DB_SCALE_FACTOR : ℝ := 20 / Real.log 10

/-- Source `magnitudeToDb`. -/
noncomputable def magnitudeToDb (magnitude : ℝ) : ℝ :=
  DB_SCALE_FACTOR * Real.log (magnitude + 1e-10)

/-- Source `windowSize = Math.floor(fftSize / zeroPadding)`. -/
def windowSizeOf (fftSize zeroPadding : ℕ) : ℕ := fftSize / zeroPadding

/-- Source `numBins = fftSize / 2 + 1`. -/
def numBinsOf (fftSize : ℕ) : ℕ := fftSize / 2 + 1

/-- Source `numFrames = Math.floor((samples.length - windowSize) / hopSize) + 1`
(floor division of a possibly negative numerator). -/
def numFramesInt (len ws hop : ℕ) : ℤ :=
  Int.fdiv ((len : ℤ) - (ws : ℤ)) (hop : ℤ) + 1

/-- Frame extraction `samples.subarray(frame*hopSize, frame*hopSize +
windowSize)`. -/
noncomputable def frameDataOf (samples : List ℝ) (hop ws frame : ℕ) :
    List ℝ :=
  (samples.drop (frame * hop)).take ws

/-- Zero padding: the FFT input is the windowed buffer, extended with
explicit zeros up to `fftSize` when `zeroPadding > 1` (positions at and
beyond `windowSize` are cleared every frame). -/
noncomputable def fftInputOf (windowed : List ℝ) (fftSize : ℕ) : List ℝ :=
  List.ofFn (n := fftSize) fun i =>
    if h : (i : ℕ) < windowed.length then windowed.get ⟨i, h⟩ else 0

/-! ## `generateStandardSpectrogram` -/

section StandardAlgorithm

variable (samples : List ℝ) (fftContext : FFTContext) (hopSize : ℕ)
variable (windowType : WindowType) (zeroPadding : ℕ) (gain range : ℝ)

/-- The FFT input for one frame of the standard algorithm: extract,
window, and zero-pad (`zeroPadding > 1`) or use the windowed buffer
directly. -/
noncomputable def stdFFTInput (frame : ℕ) : List ℝ :=
  if 1 < zeroPadding then
    fftInputOf (applyWindowCoefficients
      (frameDataOf samples hopSize
        (windowSizeOf fftContext.size zeroPadding) frame)
      (getWindowCoefficients windowType
        (windowSizeOf fftContext.size zeroPadding) .standard))
      fftContext.size
  else
    applyWindowCoefficients
      (frameDataOf samples hopSize
        (windowSizeOf fftContext.size zeroPadding) frame)
      (getWindowCoefficients windowType
        (windowSizeOf fftContext.size zeroPadding) .standard)

/-- The complex FFT output of one standard frame, read at flat index `k`
(`re` at `2*bin`, `im` at `2*bin+1`). -/
noncomputable def stdFFTOut (frame k : ℕ) : ℝ :=
  runFFT fftContext
    (stdFFTInput samples fftContext hopSize windowType zeroPadding frame) k

/-- One matrix entry of the standard spectrogram: the first 3 bins are
forced to 0; every other bin is the clamped, dB-normalized magnitude. -/
noncomputable def stdEntry (frame bin : ℕ) : ℝ :=
  if bin < 3 then 0
  else
    let re := stdFFTOut samples fftContext hopSize windowType zeroPadding
      frame (bin * 2)
    let im := stdFFTOut samples fftContext hopSize windowType zeroPadding
      frame (bin * 2 + 1)
    let magnitude := Real.sqrt (re * re + im * im)
    let normFactor := ((fftContext.size : ℝ) *
      WINDOW_COHERENT_GAIN windowType) / 2
    let db := magnitudeToDb (magnitude / normFactor)
    let gainOffset := gain - range
    clamp01 ((db - gainOffset) / range)

/-- The flat row-major `numFrames × numBins` matrix written by the
standard algorithm (`spectrogram[frame * numBins + bin]`). -/
noncomputable def stdSpectrogramData : List ℝ :=
  let numBins := numBinsOf fftContext.size
  let numFrames := (numFramesInt samples.length
    (windowSizeOf fftContext.size zeroPadding) hopSize).toNat
  List.ofFn (n := numFrames * numBins) fun i =>
    stdEntry samples fftContext hopSize windowType zeroPadding gain range
      ((i : ℕ) / numBins) ((i : ℕ) % numBins)

/-- Source `generateStandardSpectrogram`: fails when the frame count is not
positive, otherwise returns the matrix and the frame count. -/
noncomputable def generateStandardSpectrogram :
    Except String (List ℝ × ℕ) :=
  let numFrames := numFramesInt samples.length
    (windowSizeOf fftContext.size zeroPadding) hopSize
  if numFrames ≤ 0 then
    .error "Audio too short for the given FFT size"
  else
    .ok (stdSpectrogramData samples fftContext hopSize windowType
      zeroPadding gain range, numFrames.toNat)

end StandardAlgorithm

/-! ## `generateReassignedSpectrogram` -/

section ReassignedAlgorithm

variable (samples : List ℝ) (fftContext : FFTContext) (hopSize : ℕ)
variable (windowType : WindowType) (zeroPadding : ℕ) (gain range : ℝ)

/-- The FFT input of one frame for a given window variant (standard,
derivative or time-ramped coefficients), zero-padded when
`zeroPadding > 1`. -/
noncomputable def reFFTInput (variant : WindowVariant) (frame : ℕ) :
    List ℝ :=
  if 1 < zeroPadding then
    fftInputOf (applyWindowCoefficients
      (frameDataOf samples hopSize
        (windowSizeOf fftContext.size zeroPadding) frame)
      (getWindowCoefficients windowType
        (windowSizeOf fftContext.size zeroPadding) variant))
      fftContext.size
  else
    applyWindowCoefficients
      (frameDataOf samples hopSize
        (windowSizeOf fftContext.size zeroPadding) frame)
      (getWindowCoefficients windowType
        (windowSizeOf fftContext.size zeroPadding) variant)

/-- Source `X_h` / `X_Dh` / `X_Th` read at flat index `k`. -/
noncomputable def reFFTOut (variant : WindowVariant) (frame k : ℕ) : ℝ :=
  runFFT fftContext
    (reFFTInput samples fftContext hopSize windowType zeroPadding variant
      frame) k

/-- Source |X_h|²` at a frame and bin. -/
noncomputable def magSqAt (frame bin : ℕ) : ℝ :=
  let re_h := reFFTOut samples fftContext hopSize windowType zeroPadding
    WindowVariant.standard frame (bin * 2)
  let im_h := reFFTOut samples fftContext hopSize windowType zeroPadding
    WindowVariant.standard frame (bin * 2 + 1)
  re_h * re_h + im_h * im_h

/-- Instantaneous-frequency correction in bins:
`-Im(X_Dh / X_h) * fftSize / (2π)`. -/
noncomputable def freqCorrectionAt (frame bin : ℕ) : ℝ :=
  let re_h := reFFTOut samples fftContext hopSize windowType zeroPadding
    WindowVariant.standard frame (bin * 2)
  let im_h := reFFTOut samples fftContext hopSize windowType zeroPadding
    WindowVariant.standard frame (bin * 2 + 1)
  let re_Dh := reFFTOut samples fftContext hopSize windowType zeroPadding
    WindowVariant.derivative frame (bin * 2)
  let im_Dh := reFFTOut samples fftContext hopSize windowType zeroPadding
    WindowVariant.derivative frame (bin * 2 + 1)
  let magSq := magSqAt samples fftContext hopSize windowType zeroPadding
    frame bin
  let rDhIm := (im_Dh * re_h - re_Dh * im_h) / magSq;
  -rDhIm * ((fftContext.size : ℝ) / (2 * Real.pi))

/-- Group-delay / time correction in frames: `Re(X_Th / X_h) / hopSize`. -/
noncomputable def timeCorrectionAt (frame bin : ℕ) : ℝ :=
  let re_h := reFFTOut samples fftContext hopSize windowType zeroPadding
    WindowVariant.standard frame (bin * 2)
  let im_h := reFFTOut samples fftContext hopSize windowType zeroPadding
    WindowVariant.standard frame (bin * 2 + 1)
  let re_Th := reFFTOut samples fftContext hopSize windowType zeroPadding
    WindowVariant.timeRamped frame (bin * 2)
  let im_Th := reFFTOut samples fftContext hopSize windowType zeroPadding
    WindowVariant.timeRamped frame (bin * 2 + 1)
  let magSq := magSqAt samples fftContext hopSize windowType zeroPadding
    frame bin
  let rThRe := (re_Th * re_h + im_Th * im_h) / magSq
  rThRe / (hopSize : ℝ)

/-- Source `reassignedBin = (bin + freqCorrection + 0.5) | 0`. -/
noncomputable def reassignedBinAt (frame bin : ℕ) : ℤ :=
  jsToInt32 ((bin : ℝ) +
    freqCorrectionAt samples fftContext hopSize windowType zeroPadding
      frame bin + 0.5)

/-- Source `reassignedFrame = (frame + timeCorrection + 0.5) | 0`. -/
noncomputable def reassignedFrameAt (frame bin : ℕ) : ℤ :=
  jsToInt32 ((frame : ℝ) +
    timeCorrectionAt samples fftContext hopSize windowType zeroPadding
      frame bin + 0.5)

/-- The dB-normalized, clamped value contributed by a (frame, bin) pair. -/
noncomputable def reValueAt (frame bin : ℕ) : ℝ :=
  let mag_h := Real.sqrt (magSqAt samples fftContext hopSize windowType
    zeroPadding frame bin)
  let normFactor := ((fftContext.size : ℝ) *
    WINDOW_COHERENT_GAIN windowType) / 2
  let db := magnitudeToDb (mag_h / normFactor)
  let gainOffset := gain - range
  clamp01 ((db - gainOffset) / range)

/-- The reassigned contribution of one (frame, bin) pair: `none` when the
magnitude is numerically negligible or the reassigned coordinates fall
out of bounds, otherwise the flat accumulator index together with the
clamped value. -/
noncomputable def contribAt (numFrames numBins : ℕ) (frame bin : ℕ) :
    Option (ℕ × ℝ) :=
  if magSqAt samples fftContext hopSize windowType zeroPadding frame bin
      < 1e-20 then
    none
  else
    let rb := reassignedBinAt samples fftContext hopSize windowType
      zeroPadding frame bin
    let rf := reassignedFrameAt samples fftContext hopSize windowType
      zeroPadding frame bin
    if 3 ≤ rb ∧ rb < (numBins : ℤ) ∧ 0 ≤ rf ∧ rf < (numFrames : ℤ) then
      some (rf.toNat * numBins + rb.toNat,
        reValueAt samples fftContext hopSize windowType zeroPadding gain
          range frame bin)
    else
      none

/-- All contributions, produced frame by frame and, within a frame, bin
by bin from `dcBinsToSkip = 3` upward. -/
noncomputable def reassignContribs (numFrames numBins : ℕ) :
    List (ℕ × ℝ) :=
  ((List.range numFrames).flatMap fun frame =>
    (List.range' 3 (numBins - 3)).map fun bin => (frame, bin)).filterMap
    fun p =>
      contribAt samples fftContext hopSize windowType zeroPadding gain
        range numFrames numBins p.1 p.2

/-- One accumulation step:
`if (value > energyAccum[idx]) energyAccum[idx] = value`. -/
noncomputable def reassignStep (acc : ℕ → ℝ) (c : ℕ × ℝ) : ℕ → ℝ :=
  fun i => if i = c.1 then (if c.2 > acc c.1 then c.2 else acc c.1)
    else acc i

/-- The energy accumulator after all contributions (initially all `0`). -/
noncomputable def reassignAccum (numFrames numBins : ℕ) : ℕ → ℝ :=
  (reassignContribs samples fftContext hopSize windowType zeroPadding gain
    range numFrames numBins).foldl reassignStep fun _ => 0

/-- The flat matrix of the reassignment algorithm (`spectrogram.set(
energyAccum)`). -/
noncomputable def reassignedSpectrogramData : List ℝ :=
  let numBins := numBinsOf fftContext.size
  let numFrames := (numFramesInt samples.length
    (windowSizeOf fftContext.size zeroPadding) hopSize).toNat
  List.ofFn (n := numFrames * numBins) fun i =>
    reassignAccum samples fftContext hopSize windowType zeroPadding gain
      range numFrames numBins i

/-- Source `generateReassignedSpectrogram`. -/
noncomputable def generateReassignedSpectrogram :
    Except String (List ℝ × ℕ) :=
  let numFrames := numFramesInt samples.length
    (windowSizeOf fftContext.size zeroPadding) hopSize
  if numFrames ≤ 0 then
    .error "Audio too short for the given FFT size"
  else
    .ok (reassignedSpectrogramData samples fftContext hopSize windowType
      zeroPadding gain range, numFrames.toNat)

end ReassignedAlgorithm

/-! ## `generateSpectrogram` (wrapper, hop-size policy, metadata) -/

/-- The two algorithms. -/
inductive SpectrogramAlgorithm
  | standard | reassignment
  deriving DecidableEq

/-- Source `SpectrogramOptions` (optional fields carry their documented
defaults, applied by the wrapper). -/
structure SpectrogramOptions where
  samples : List ℝ
  sampleRate : ℝ
  fftContext : FFTContext
  hopSize : Option ℕ := none
  windowType : Option WindowType := none
  zeroPadding : Option ℕ := none
  gain : Option ℝ := none
  range : Option ℝ := none
  algorithm : Option SpectrogramAlgorithm := none
  targetWidth : Option ℕ := none

/-- Source `SpectrogramData` result record (timing diagnostics omitted). -/
structure SpectrogramData where
  data : List ℝ
  numFrames : ℕ
  numBins : ℕ
  fftSize : ℕ
  windowSize : ℕ
  hopSize : ℕ
  sampleRate : ℝ
  duration : ℝ

/-- The hop-size policy of `generateSpectrogram`: start from the user (or
default) hop size; when a positive `targetWidth` is given and the hop
would produce more frames than it, raise the hop to
`max(hopSize, Math.floor((len - windowSize) / Math.max(1, targetWidth - 1)))`. -/
def effectiveHop (len ws userHop : ℕ) (targetWidth : Option ℕ) : ℕ :=
  match targetWidth with
  | none => userHop
  | some tw =>
    if 0 < tw then
      let framesWithUserHop := numFramesInt len ws userHop
      if (tw : ℤ) < framesWithUserHop then
        let minHopSize := Int.fdiv ((len : ℤ) - (ws : ℤ)) (max 1 ((tw : ℤ) - 1))
        (max (userHop : ℤ) minHopSize).toNat
      else userHop
    else userHop

/-- Source `generateSpectrogram`: apply defaults, resolve the hop size, run the
selected algorithm and assemble the result record. -/
noncomputable def generateSpectrogram (options : SpectrogramOptions) :
    Except String SpectrogramData :=
  let samples := options.samples
  let fftContext := options.fftContext
  let zeroPadding := options.zeroPadding.getD 1
  let gain := options.gain.getD 0
  let range := options.range.getD 80
  let algorithm := options.algorithm.getD .standard
  let windowType := options.windowType.getD .hann
  let fftSize := fftContext.size
  let windowSize := windowSizeOf fftSize zeroPadding
  let numBins := numBinsOf fftSize
  let userHop := options.hopSize.getD (fftSize / 4)
  let hopSize := effectiveHop samples.length windowSize userHop
    options.targetWidth
  let result :=
    match algorithm with
    | .reassignment =>
      generateReassignedSpectrogram samples fftContext hopSize windowType
        zeroPadding gain range
    | .standard =>
      generateStandardSpectrogram samples fftContext hopSize windowType
        zeroPadding gain range
  match result with
  | .error e => .error e
  | .ok (data, numFrames) =>
    .ok { data := data
          numFrames := numFrames
          numBins := numBins
          fftSize := fftSize
          windowSize := windowSize
          hopSize := hopSize
          sampleRate := options.sampleRate
          duration := (samples.length : ℝ) / options.sampleRate }

/-! ## `frequency-mapping.ts` -/

/-- Frequency scales. -/
inductive FrequencyScale
  | linear | log | mel | bark | erb
  deriving DecidableEq

/-- Source `hzToMel`. -/
noncomputable def hzToMel (hz : ℝ) : ℝ := 2595 * Real.logb 10 (1 + hz / 700)

/-- Source `melToHz`. -/
noncomputable def melToHz (mel : ℝ) : ℝ := 700 * ((10 : ℝ) ^ (mel / 2595) - 1)

/-- Source `hzToBark`. -/
noncomputable def hzToBark (hz : ℝ) : ℝ :=
  13 * Real.arctan (0.00076 * hz) + 3.5 * Real.arctan ((hz / 7500) ^ 2)

/-- The analytic derivative used inside `barkToHz`'s Newton iteration. -/
noncomputable def barkDerivative (hz : ℝ) : ℝ :=
  (13 * 0.00076) / (1 + (0.00076 * hz) ^ 2) +
    (3.5 * 2 * (hz / 7500)) / (7500 * (1 + (hz / 7500) ^ 4))

/-- The Newton iteration of `barkToHz`: at most `fuel` steps, stopping
early when the bark error drops below `0.001`. -/
noncomputable def barkNewton (bark : ℝ) : ℕ → ℝ → ℝ
  | 0, hz => hz
  | fuel + 1, hz =>
    let currentBark := hzToBark hz
    let err := bark - currentBark
    if |err| < 0.001 then hz
    else barkNewton bark fuel (hz + err / barkDerivative hz)

/-- Source `barkToHz`: 10 Newton-Raphson iterations from the seed `bark * 100`,
floored at 1 Hz. -/
noncomputable def barkToHz (bark : ℝ) : ℝ :=
  max 1 (barkNewton bark 10 (bark * 100))

/-- Source `hzToErb`. -/
noncomputable def hzToErb (hz : ℝ) : ℝ :=
  21.4 * Real.logb 10 (1 + 0.00437 * hz)

/-- Source `erbToHz`. -/
noncomputable def erbToHz (erb : ℝ) : ℝ :=
  ((10 : ℝ) ^ (erb / 21.4) - 1) / 0.00437

/-- The display-bin interpolation parameter `i / (displayBins - 1)`. -/
noncomputable def displayT (displayBins i : ℕ) : ℝ :=
  (i : ℝ) / ((displayBins : ℝ) - 1)

/-- The Hz value mapped to display bin `i` by `createFrequencyMapping`
for a given scale (interpolating linearly in the scale's own domain). -/
noncomputable def mappingHz (scale : FrequencyScale)
    (effectiveMinFreq effectiveMaxFreq : ℝ) (displayBins i : ℕ) : ℝ :=
  let t := displayT displayBins i
  match scale with
  | .linear => effectiveMinFreq + t * (effectiveMaxFreq - effectiveMinFreq)
  | .log =>
    let logMin := Real.logb 10 effectiveMinFreq
    let logMax := Real.logb 10 effectiveMaxFreq
    (10 : ℝ) ^ (logMin + t * (logMax - logMin))
  | .mel =>
    let minMel := hzToMel effectiveMinFreq
    let maxMel := hzToMel effectiveMaxFreq
    melToHz (minMel + t * (maxMel - minMel))
  | .bark =>
    let minBark := hzToBark effectiveMinFreq
    let maxBark := hzToBark effectiveMaxFreq
    barkToHz (minBark + t * (maxBark - minBark))
  | .erb =>
    let minErb := hzToErb effectiveMinFreq
    let maxErb := hzToErb effectiveMaxFreq
    erbToHz (minErb + t * (maxErb - minErb))

/-- Source `createFrequencyMapping`: each display bin is sent to the fractional
source-bin coordinate `hz / nyquist * (numBins - 1)`. -/
noncomputable def createFrequencyMapping (numBins : ℕ) (sampleRate : ℝ)
    (scale : FrequencyScale) (displayBins : ℕ)
    (minFreq maxFreq : Option ℝ) : List ℝ :=
  List.ofFn (n := displayBins) fun i =>
    mappingHz scale (max (minFreq.getD 20) 1)
      (min (maxFreq.getD (sampleRate / 2)) (sampleRate / 2)) displayBins
      i / (sampleRate / 2) * ((numBins : ℝ) - 1)

/-! ## `renderer.ts` -/

inductive DownsampleMode
  | max | average | nearest
  deriving DecidableEq

inductive InterpolationMode
  | nearest | linear | cubic
  deriving DecidableEq

inductive ColorScale
  | viridis | magma | grayscale | hot | inferno
  deriving DecidableEq

/-- Source `cubicInterpolate`: Catmull-Rom spline. -/
noncomputable def cubicInterpolate (p0 p1 p2 p3 t : ℝ) : ℝ :=
  let t2 := t * t
  let t3 := t2 * t;
  0.5 * (2 * p1 + (-p0 + p2) * t + (2 * p0 - 5 * p1 + 4 * p2 - p3) * t2 +
    (-p0 + 3 * p1 - 3 * p2 + p3) * t3)

/-- Index clamp `Math.max(0, Math.min(len - 1, idx))`. -/
def clampIdx (len : ℕ) (idx : ℤ) : ℤ := max 0 (min ((len : ℤ) - 1) idx)

/-- Source `sampleSpectrum`: sample at a fractional bin position with the given
interpolation mode. -/
noncomputable def sampleSpectrum (spectrum : List ℝ) (pos : ℝ)
    (interpolation : InterpolationMode) : ℝ :=
  let len := spectrum.length
  match interpolation with
  | .nearest => spectrum.getD (clampIdx len (jsRound pos)).toNat 0
  | .linear =>
    let idx := ⌊pos⌋
    let frac := pos - idx
    let i0 := clampIdx len idx
    let i1 := clampIdx len (idx + 1)
    spectrum.getD i0.toNat 0 * (1 - frac) + spectrum.getD i1.toNat 0 * frac
  | .cubic =>
    let idx := ⌊pos⌋
    let frac := pos - idx
    let i0 := clampIdx len (idx - 1)
    let i1 := clampIdx len idx
    let i2 := clampIdx len (idx + 1)
    let i3 := clampIdx len (idx + 2)
    max 0 (cubicInterpolate (spectrum.getD i0.toNat 0)
      (spectrum.getD i1.toNat 0) (spectrum.getD i2.toNat 0)
      (spectrum.getD i3.toNat 0) frac)

/-- Source `calculateFrequencyGain`: dB boost per decade above 1000 Hz. -/
noncomputable def calculateFrequencyGain (hz frequencyGain : ℝ) : ℝ :=
  if frequencyGain = 0 ∨ hz ≤ 1000 then 0
  else frequencyGain * Real.logb 10 (hz / 1000)

/-- Source `getFrequencyAtBin`. -/
noncomputable def getFrequencyAtBin (bin displayBins : ℕ)
    (minFreq maxFreq : ℝ) (freqScale : FrequencyScale) : ℝ :=
  let t := (bin : ℝ) / ((displayBins : ℝ) - 1)
  match freqScale with
  | .linear => minFreq + t * (maxFreq - minFreq)
  | .log =>
    let logMin := Real.logb 10 minFreq
    let logMax := Real.logb 10 maxFreq
    (10 : ℝ) ^ (logMin + t * (logMax - logMin))
  | _ => minFreq + t * (maxFreq - minFreq)

/-- The raw (unclamped) covered source range of display bin `i`
(midpoint rule at interior bins, one-sided at the boundary bins). -/
noncomputable def srcRangeRaw (freqMapping : List ℝ)
    (displayBins i : ℕ) : ℝ × ℝ :=
  let srcBin := freqMapping.getD i 0
  if i = 0 then
    (srcBin,
      if i + 1 < displayBins then (srcBin + freqMapping.getD (i + 1) 0) * 0.5
      else srcBin + 0.5)
  else if i = displayBins - 1 then
    ((freqMapping.getD (i - 1) 0 + srcBin) * 0.5, srcBin)
  else
    ((freqMapping.getD (i - 1) 0 + srcBin) * 0.5,
      (srcBin + freqMapping.getD (i + 1) 0) * 0.5)

/-- The covered source range after clamping to `[0, specLen - 1]`. -/
noncomputable def srcRangeClamped (specLen : ℕ) (freqMapping : List ℝ)
    (displayBins i : ℕ) : ℝ × ℝ :=
  let r := srcRangeRaw freqMapping displayBins i
  (if r.1 < 0 then 0 else r.1,
   if r.2 > (specLen : ℝ) - 1 then (specLen : ℝ) - 1 else r.2)

/-- The inclusive integer scan range of the downsampling loop:
`binLow = srcBinStart | 0` up to `min(binHigh, specLen - 1)` with
`binHigh = (srcBinEnd + 1) | 0`. -/
noncomputable def scanIdxs (specLen : ℕ) (freqMapping : List ℝ)
    (displayBins i : ℕ) : List ℕ :=
  let r := srcRangeClamped specLen freqMapping displayBins i
  let binLow := jsToInt32 r.1
  let binHigh := jsToInt32 (r.2 + 1)
  List.range' binLow.toNat
    (min binHigh ((specLen : ℤ) - 1) - binLow + 1).toNat

/-- One display-bin value of `remapSpectrumWithDownsample`
(`srcBin = freqMapping[i]`, `binLow = srcBinStart | 0`,
`binHigh = (srcBinEnd + 1) | 0`). -/
noncomputable def remapAt (spectrum freqMapping : List ℝ)
    (displayBins : ℕ) (downsampleMode : DownsampleMode)
    (interpolation : InterpolationMode) (i : ℕ) : ℝ :=
  if jsToInt32 ((srcRangeClamped spectrum.length freqMapping displayBins
        i).2 + 1) ≤
      jsToInt32 (srcRangeClamped spectrum.length freqMapping displayBins
        i).1 ∨
      downsampleMode = .nearest then
    sampleSpectrum spectrum (freqMapping.getD i 0) interpolation
  else if downsampleMode = .max then
    (scanIdxs spectrum.length freqMapping displayBins i).foldl
      (fun a j => let val := spectrum.getD j 0;
        if val > a then val else a)
      (sampleSpectrum spectrum (freqMapping.getD i 0) interpolation)
  else
    ((scanIdxs spectrum.length freqMapping displayBins i).foldl
      (fun a j => a + spectrum.getD j 0)
      (sampleSpectrum spectrum (freqMapping.getD i 0) interpolation)) /
      (1 + ((scanIdxs spectrum.length freqMapping displayBins i).length :
        ℝ))

/-- Source `remapSpectrumWithDownsample` as a whole display row. -/
noncomputable def remapSpectrumWithDownsample (spectrum freqMapping : List ℝ)
    (displayBins : ℕ) (downsampleMode : DownsampleMode)
    (interpolation : InterpolationMode) : List ℝ :=
  List.ofFn (n := displayBins) fun i =>
    remapAt spectrum freqMapping displayBins downsampleMode interpolation i

/-! ## `color-scales.ts` -/

/-- Source `COLOR_SCALES`: analytic piecewise color functions, returning integer
RGB triplets. -/
noncomputable def COLOR_SCALES (scale : ColorScale) (t : ℝ) : ℤ × ℤ × ℤ :=
  match scale with
  | .viridis =>
    (max 0 (min 255 ⌊255 * (0.267 + 0.329 * t + 2.66 * t * t -
        2.35 * t * t * t)⌋),
     max 0 (min 255 ⌊255 * (0.004 + 1.42 * t - 1.54 * t * t +
        0.69 * t * t * t)⌋),
     max 0 (min 255 ⌊255 * (0.329 + 1.42 * t - 2.49 * t * t +
        1.33 * t * t * t)⌋))
  | .magma =>
    if t < 0.25 then
      let s := t / 0.25
      (⌊3 * s⌋, ⌊3 * s⌋, ⌊80 * s⌋)
    else if t < 0.5 then
      let s := (t - 0.25) / 0.25
      (⌊3 + 177 * s⌋, ⌊3 - 3 * s⌋, ⌊80 + 100 * s⌋)
    else if t < 0.75 then
      let s := (t - 0.5) / 0.25
      (⌊180 + 75 * s⌋, ⌊0 + 140 * s⌋, ⌊180 - 180 * s⌋)
    else
      let s := (t - 0.75) / 0.25
      (255, ⌊140 + 115 * s⌋, ⌊0 + 255 * s⌋)
  | .grayscale =>
    let v := ⌊255 * t⌋
    (v, v, v)
  | .hot =>
    if t < 0.33 then (⌊255 * (t / 0.33)⌋, 0, 0)
    else if t < 0.67 then (255, ⌊255 * ((t - 0.33) / 0.34)⌋, 0)
    else (255, 255, ⌊255 * ((t - 0.67) / 0.33)⌋)
  | .inferno =>
    if t < 0.15 then
      let s := t / 0.15
      (⌊10 + 50 * s⌋, 0, ⌊20 + 60 * s⌋)
    else if t < 0.4 then
      let s := (t - 0.15) / 0.25
      (⌊60 + 120 * s⌋, ⌊20 * s⌋, ⌊80 + 40 * s⌋)
    else if t < 0.65 then
      let s := (t - 0.4) / 0.25
      (⌊180 + 60 * s⌋, ⌊20 + 60 * s⌋, ⌊120 - 100 * s⌋)
    else if t < 0.85 then
      let s := (t - 0.65) / 0.2
      (255, ⌊80 + 120 * s⌋, ⌊20 - 20 * s⌋)
    else
      let s := (t - 0.85) / 0.15
      (255, ⌊200 + 55 * s⌋, ⌊100 * s⌋)

/-- Source `COLOR_LUT_SIZE = 256`. -/
def COLOR_LUT_SIZE : ℕ := 256

/-- Source `getColorLUT`: entry `i` of the cached lookup table is the analytic
color function sampled at `i / 255`. -/
noncomputable def getColorLUT (colorScale : ColorScale) (i : ℕ) :
    ℤ × ℤ × ℤ :=
  COLOR_SCALES colorScale ((i : ℝ) / ((COLOR_LUT_SIZE : ℝ) - 1))

/-! ## `renderToImageData` -/

/-- Render options (without canvas); optional fields carry the
renderer's documented defaults, applied inside `renderToImageData`. -/
structure RenderOptions where
  spectrogram : SpectrogramData
  colorScale : Option ColorScale := none
  freqScale : Option FrequencyScale := none
  minFreq : Option ℝ := none
  maxFreq : Option ℝ := none
  frequencyGain : Option ℝ := none
  range : Option ℝ := none
  downsampleMode : Option DownsampleMode := none
  interpolation : Option InterpolationMode := none
  outputWidth : Option ℕ := none
  outputHeight : Option ℕ := none

/-- The `ImageData` object: an RGBA byte buffer with its dimensions. -/
structure MImageData where
  width : ℕ
  height : ℕ
  data : List ℤ

/-- The per-display-bin gain offset `calculateFrequencyGain(hz) / 40`. -/
noncomputable def freqGainFactor (displayBins : ℕ)
    (effectiveMinFreq effectiveMaxFreq : ℝ) (freqScale : FrequencyScale)
    (frequencyGain : ℝ) (bin : ℕ) : ℝ :=
  calculateFrequencyGain
    (getFrequencyAtBin bin displayBins effectiveMinFreq effectiveMaxFreq
      freqScale) frequencyGain / 40

/-- One byte of the output pixel buffer.  The flat byte index `p`
decomposes as `p = ((y * numFrames) + frame) * 4 + channel` with
`y = displayBins - 1 - bin`. -/
noncomputable def renderByte (options : RenderOptions) (p : ℕ) : ℤ :=
  let spectrogram := options.spectrogram
  let freqScale := options.freqScale.getD .log
  let minFreq := options.minFreq.getD 50
  let maxFreq := options.maxFreq.getD 8000
  let frequencyGain := options.frequencyGain.getD 0
  let downsampleMode := options.downsampleMode.getD .max
  let interpolation := options.interpolation.getD .linear
  let colorScale := options.colorScale.getD .magma
  let numFrames := spectrogram.numFrames
  let numBins := spectrogram.numBins
  let nyquist := spectrogram.sampleRate / 2
  let displayBins := numBins
  let effectiveMinFreq := max minFreq 1
  let effectiveMaxFreq := min maxFreq nyquist
  let freqMapping := createFrequencyMapping numBins spectrogram.sampleRate
    freqScale displayBins (some effectiveMinFreq) (some effectiveMaxFreq)
  let pix := p / 4
  let channel := p % 4
  let frame := pix % numFrames
  let y := pix / numFrames
  let bin := displayBins - 1 - y
  let frameSpectrum := (spectrogram.data.drop (frame * numBins)).take numBins
  let remapped := remapAt frameSpectrum freqMapping displayBins
    downsampleMode interpolation bin
  let value := clamp01 (remapped +
    freqGainFactor displayBins effectiveMinFreq effectiveMaxFreq freqScale
      frequencyGain bin)
  let lutIdx := jsToInt32 (value * ((COLOR_LUT_SIZE : ℝ) - 1) + 0.5)
  let rgb := getColorLUT colorScale lutIdx.toNat
  match channel with
  | 0 => rgb.1
  | 1 => rgb.2.1
  | 2 => rgb.2.2
  | _ => 255

/-- Source `renderToImageData`: the returned `ImageData` is created as
`new ImageData(numFrames, displayBins)` with `displayBins = numBins`;
the `outputWidth` / `outputHeight` options are never consulted. -/
noncomputable def renderToImageData (options : RenderOptions) :
    MImageData :=
  let numFrames := options.spectrogram.numFrames
  let displayBins := options.spectrogram.numBins
  { width := numFrames
    height := displayBins
    data := List.ofFn (n := numFrames * displayBins * 4) fun p =>
      renderByte options p }

/-! ## Spec-side model definitions

These follow the specification text (not the source); they exist to be
compared against the source-derived definitions above. -/

/-- Modelled from the spec: the frame-count formula
`floor((numSamples - windowSize) / hopSize) + 1`, read as real division
followed by `floor`. -/
noncomputable def specNumFrames (numSamples windowSize hopSize : ℕ) : ℤ :=
  ⌊((numSamples : ℝ) - (windowSize : ℝ)) / (hopSize : ℝ)⌋ + 1

/-! ## General helper lemmas -/

theorem getD_ofFn {n : ℕ} (f : Fin n → ℝ) (i : ℕ) :
    (List.ofFn f).getD i 0 = if h : i < n then f ⟨i, h⟩ else 0 := by
  rw [List.getD_eq_getElem?_getD, List.getElem?_ofFn]
  unfold List.ofFnNthVal
  split <;> simp

/-- For a positive divisor, JS `Math.floor(a / d)` agrees with `Int.fdiv`. -/
theorem fdiv_eq_real_floor (a : ℤ) (d : ℕ) (hd : 0 < d) :
    Int.fdiv a (d : ℤ) = ⌊(a : ℝ) / (d : ℝ)⌋ := by
  rw [Int.fdiv_eq_ediv _ (by positivity)]
  have h1 : ((a : ℚ) : ℝ) / ((d : ℚ) : ℝ) = (a : ℝ) / (d : ℝ) := by push_cast; ring
  rw [← h1, ← Rat.cast_div, Rat.floor_cast, Rat.floor_intCast_div_natCast]

/-- The effective hop size never drops below the user-specified hop. -/
theorem userHop_le_effectiveHop (len ws userHop : ℕ) (tw : Option ℕ) :
    userHop ≤ effectiveHop len ws userHop tw := by
  unfold effectiveHop
  cases tw with
  | none => exact le_refl _
  | some t =>
    simp only []
    split
    · split
      · omega
      · exact le_refl _
    · exact le_refl _

/-! ## Claim C10: per-frame reads stay in bounds -/

/-- Claim C10 (safety): whenever `hopSize ≥ 1` and the computed frame count
`numFrames = floor((numSamples - windowSize)/hopSize) + 1` is positive,
every frame index `f < numFrames` satisfies
`f*hopSize + windowSize ≤ numSamples`, so each extracted window consists
entirely of real input samples (`frameDataOf` returns exactly
`windowSize` samples). -/
theorem frame_reads_in_bounds (samples : List ℝ) (ws hop : ℕ)
    (hhop : 1 ≤ hop) (hpos : 0 < numFramesInt samples.length ws hop) :
    ∀ f : ℕ, (f : ℤ) < numFramesInt samples.length ws hop →
      f * hop + ws ≤ samples.length ∧
      (frameDataOf samples hop ws f).length = ws := by
  intro f hf
  have hhopZ : (0 : ℤ) < (hop : ℤ) := by exact_mod_cast hhop
  unfold numFramesInt at hf hpos
  rw [Int.fdiv_eq_ediv _ (le_of_lt hhopZ)] at hf hpos
  have hle : (f : ℤ) ≤ ((samples.length : ℤ) - (ws : ℤ)) / (hop : ℤ) := by
    omega
  have hmul : (f : ℤ) * (hop : ℤ) ≤ (samples.length : ℤ) - (ws : ℤ) :=
    (Int.le_ediv_iff_mul_le hhopZ).mp hle
  have hbound : f * hop + ws ≤ samples.length := by
    zify
    linarith [hmul]
  refine ⟨hbound, ?_⟩
  unfold frameDataOf
  rw [List.length_take, List.length_drop]
  omega

/-- Witness for C10 at `numSamples = 18`, `windowSize = 8`, `hopSize = 2`. -/
theorem frame_reads_in_bounds_witness :
    (1 ≤ 2 ∧ 0 < numFramesInt (List.replicate 18 (0 : ℝ)).length 8 2) ∧
      ∀ f : ℕ, (f : ℤ) < numFramesInt (List.replicate 18 (0 : ℝ)).length 8 2 →
        f * 2 + 8 ≤ (List.replicate 18 (0 : ℝ)).length ∧
        (frameDataOf (List.replicate 18 (0 : ℝ)) 2 8 f).length = 8 := by
  have hlen : (List.replicate 18 (0 : ℝ)).length = 18 := by simp
  constructor
  · constructor
    · omega
    · rw [hlen]; decide
  · exact frame_reads_in_bounds (List.replicate 18 (0 : ℝ)) 8 2 (by omega)
      (by rw [hlen]; decide)

/-! ## Claim C3: frame count and the insufficient-audio error -/

/-- Both algorithm cores fail exactly when the frame count is not
positive, and otherwise return `toNat` of the frame count. -/
theorem algorithm_core_cases (samples : List ℝ) (ctx : FFTContext)
    (hop : ℕ) (wt : WindowType) (zp : ℕ) (g r : ℝ) :
    (numFramesInt samples.length (windowSizeOf ctx.size zp) hop ≤ 0 ∧
      generateStandardSpectrogram samples ctx hop wt zp g r =
        .error "Audio too short for the given FFT size" ∧
      generateReassignedSpectrogram samples ctx hop wt zp g r =
        .error "Audio too short for the given FFT size") ∨
    (0 < numFramesInt samples.length (windowSizeOf ctx.size zp) hop ∧
      generateStandardSpectrogram samples ctx hop wt zp g r =
        .ok (stdSpectrogramData samples ctx hop wt zp g r,
          (numFramesInt samples.length (windowSizeOf ctx.size zp)
            hop).toNat) ∧
      generateReassignedSpectrogram samples ctx hop wt zp g r =
        .ok (reassignedSpectrogramData samples ctx hop wt zp g r,
          (numFramesInt samples.length (windowSizeOf ctx.size zp)
            hop).toNat)) := by
  unfold generateStandardSpectrogram generateReassignedSpectrogram
  by_cases h : numFramesInt samples.length (windowSizeOf ctx.size zp) hop ≤ 0
  · left
    refine ⟨h, ?_, ?_⟩ <;> simp [h]
  · right
    refine ⟨by omega, ?_, ?_⟩ <;> simp [h]

/-- With a positive hop, the source's `Int.fdiv`-style frame count agrees
with the spec's real-division-and-floor formula. -/
theorem numFramesInt_eq_specNumFrames (len ws hop : ℕ) (hhop : 1 ≤ hop) :
    numFramesInt len ws hop = specNumFrames len ws hop := by
  unfold numFramesInt specNumFrames
  rw [fdiv_eq_real_floor _ _ hhop]
  congr 2
  push_cast
  ring

/-- Claim C3: for every generation call (with a positive user hop size), the
call fails with the "insufficient audio" error iff
`floor((numSamples - windowSize)/hopSize) + 1 ≤ 0` for the effective hop
size, where `windowSize = floor(fftSize/zeroPadding)`; otherwise it
returns exactly that quantity as `numFrames`. -/
theorem generate_error_iff_nonpositive_frames (options : SpectrogramOptions)
    (huser : 1 ≤ options.hopSize.getD (options.fftContext.size / 4)) :
    (generateSpectrogram options =
        .error "Audio too short for the given FFT size" ↔
      specNumFrames options.samples.length
        (windowSizeOf options.fftContext.size (options.zeroPadding.getD 1))
        (effectiveHop options.samples.length
          (windowSizeOf options.fftContext.size
            (options.zeroPadding.getD 1))
          (options.hopSize.getD (options.fftContext.size / 4))
          options.targetWidth) ≤ 0) ∧
    (∀ out, generateSpectrogram options = .ok out →
      (out.numFrames : ℤ) =
        specNumFrames options.samples.length out.windowSize out.hopSize ∧
      out.windowSize =
        windowSizeOf options.fftContext.size (options.zeroPadding.getD 1) ∧
      out.hopSize = effectiveHop options.samples.length
        (windowSizeOf options.fftContext.size (options.zeroPadding.getD 1))
        (options.hopSize.getD (options.fftContext.size / 4))
        options.targetWidth ∧
      0 < out.numFrames) := by
  have hhop1 : 1 ≤ effectiveHop options.samples.length
      (windowSizeOf options.fftContext.size (options.zeroPadding.getD 1))
      (options.hopSize.getD (options.fftContext.size / 4))
      options.targetWidth :=
    le_trans huser (userHop_le_effectiveHop _ _ _ _)
  have hkey := numFramesInt_eq_specNumFrames options.samples.length
    (windowSizeOf options.fftContext.size (options.zeroPadding.getD 1))
    (effectiveHop options.samples.length
      (windowSizeOf options.fftContext.size (options.zeroPadding.getD 1))
      (options.hopSize.getD (options.fftContext.size / 4))
      options.targetWidth) hhop1
  have hcore := algorithm_core_cases options.samples options.fftContext
    (effectiveHop options.samples.length
      (windowSizeOf options.fftContext.size (options.zeroPadding.getD 1))
      (options.hopSize.getD (options.fftContext.size / 4))
      options.targetWidth)
    (options.windowType.getD .hann) (options.zeroPadding.getD 1)
    (options.gain.getD 0) (options.range.getD 80)
  have hgen : generateSpectrogram options =
      match (match options.algorithm.getD .standard with
        | .reassignment => generateReassignedSpectrogram options.samples
            options.fftContext
            (effectiveHop options.samples.length
              (windowSizeOf options.fftContext.size
                (options.zeroPadding.getD 1))
              (options.hopSize.getD (options.fftContext.size / 4))
              options.targetWidth)
            (options.windowType.getD .hann)
            (options.zeroPadding.getD 1) (options.gain.getD 0)
            (options.range.getD 80)
        | .standard => generateStandardSpectrogram options.samples
            options.fftContext
            (effectiveHop options.samples.length
              (windowSizeOf options.fftContext.size
                (options.zeroPadding.getD 1))
              (options.hopSize.getD (options.fftContext.size / 4))
              options.targetWidth)
            (options.windowType.getD .hann)
            (options.zeroPadding.getD 1) (options.gain.getD 0)
            (options.range.getD 80)) with
      | .error e => .error e
      | .ok (data, numFrames) =>
        .ok { data := data
              numFrames := numFrames
              numBins := numBinsOf options.fftContext.size
              fftSize := options.fftContext.size
              windowSize := windowSizeOf options.fftContext.size
                (options.zeroPadding.getD 1)
              hopSize := effectiveHop options.samples.length
                (windowSizeOf options.fftContext.size
                  (options.zeroPadding.getD 1))
                (options.hopSize.getD (options.fftContext.size / 4))
                options.targetWidth
              sampleRate := options.sampleRate
              duration := (options.samples.length : ℝ) /
                options.sampleRate } := rfl
  rcases hcore with ⟨hneg, hstd, hre⟩ | ⟨hpos, hstd, hre⟩ <;>
    cases halg : options.algorithm.getD SpectrogramAlgorithm.standard <;>
      rw [halg] at hgen <;> simp only [hstd, hre] at hgen
  · constructor
    · rw [hgen]; simp [← hkey, hneg]
    · intro out hout; rw [hgen] at hout; exact absurd hout (by simp)
  · constructor
    · rw [hgen]; simp [← hkey, hneg]
    · intro out hout; rw [hgen] at hout; exact absurd hout (by simp)
  · constructor
    · rw [hgen]
      constructor
      · intro h; exact absurd h (by simp)
      · intro h; rw [← hkey] at h; omega
    · intro out hout
      rw [hgen] at hout
      simp only [Except.ok.injEq] at hout
      subst hout
      refine ⟨?_, rfl, rfl, ?_⟩
      · simp only [← hkey]
        omega
      · simp only []
        omega
  · constructor
    · rw [hgen]
      constructor
      · intro h; exact absurd h (by simp)
      · intro h; rw [← hkey] at h; omega
    · intro out hout
      rw [hgen] at hout
      simp only [Except.ok.injEq] at hout
      subst hout
      refine ⟨?_, rfl, rfl, ?_⟩
      · simp only [← hkey]
        omega
      · simp only []
        omega

/-- The concrete options of the C3 witness: the spec's worked example. -/
noncomputable def c3Options : SpectrogramOptions :=
  { samples := List.replicate 44100 (0 : ℝ)
    sampleRate := 44100
    fftContext := ⟨1024, true, fun _ => []⟩
    hopSize := some 256 }

/-- Witness for C3 at the spec's example: `numSamples = 44100`,
`fftSize = 1024`, `hopSize = 256`. -/
theorem generate_error_iff_witness :
    (1 ≤ c3Options.hopSize.getD (c3Options.fftContext.size / 4)) ∧
    ∀ out, generateSpectrogram c3Options = .ok out →
      (out.numFrames : ℤ) =
        specNumFrames c3Options.samples.length out.windowSize out.hopSize ∧
      0 < out.numFrames := by
  have hle : 1 ≤ c3Options.hopSize.getD (c3Options.fftContext.size / 4) := by
    show 1 ≤ (some 256 : Option ℕ).getD (1024 / 4)
    norm_num
  have h := generate_error_iff_nonpositive_frames c3Options hle
  exact ⟨hle, fun out hout => ⟨(h.2 out hout).1, (h.2 out hout).2.2.2⟩⟩

/-! ## The max-accumulation of the reassignment algorithm -/

/-- The scalar update `a := (v > a) ? v : a` performed on one cell. -/
noncomputable def maxStep (a v : ℝ) : ℝ := if v > a then v else a

/-- The dB-normalized values mapped to cell `i` by a contribution list. -/
noncomputable def cellValues (i : ℕ) (l : List (ℕ × ℝ)) : List ℝ :=
  (l.filter fun c => c.1 == i).map Prod.snd

theorem mem_cellValues {i : ℕ} {l : List (ℕ × ℝ)} {v : ℝ}
    (hv : v ∈ cellValues i l) : ∃ c, c ∈ l ∧ c.1 = i ∧ c.2 = v := by
  unfold cellValues at hv
  rcases List.mem_map.mp hv with ⟨c, hc, hval⟩
  exact ⟨c, List.mem_of_mem_filter hc,
    by simpa using List.of_mem_filter hc, hval⟩

theorem maxStep_eq_max (a v : ℝ) : maxStep a v = max a v := by
  unfold maxStep
  rw [max_def]
  split_ifs <;> linarith

theorem reassignStep_le (acc : ℕ → ℝ) (c : ℕ × ℝ) (i : ℕ) :
    acc i ≤ reassignStep acc c i := by
  unfold reassignStep
  split_ifs with h1 h2
  · subst h1; linarith
  · subst h1; exact le_refl _
  · exact le_refl _

/-- Pointwise, folding the accumulator update is folding `maxStep` over
the values mapped to that cell. -/
theorem foldl_reassignStep_apply (l : List (ℕ × ℝ)) (acc : ℕ → ℝ)
    (i : ℕ) :
    l.foldl reassignStep acc i = (cellValues i l).foldl maxStep (acc i) := by
  induction l generalizing acc with
  | nil => rfl
  | cons c t ih =>
    rw [List.foldl_cons, ih]
    by_cases h : c.1 = i
    · have hfil : cellValues i (c :: t) = c.2 :: cellValues i t := by
        unfold cellValues
        rw [List.filter_cons_of_pos (by simpa using h)]
        simp
      rw [hfil, List.foldl_cons]
      congr 1
      unfold reassignStep maxStep
      subst h
      simp
    · have hfil : cellValues i (c :: t) = cellValues i t := by
        unfold cellValues
        rw [List.filter_cons_of_neg (by simpa using h)]
      rw [hfil]
      congr 1
      unfold reassignStep
      simp [Ne.symm h]

theorem le_foldl_maxStep (l : List ℝ) (a : ℝ) :
    a ≤ l.foldl maxStep a := by
  induction l generalizing a with
  | nil => exact le_refl _
  | cons v t ih =>
    rw [List.foldl_cons]
    refine le_trans ?_ (ih (maxStep a v))
    rw [maxStep_eq_max]
    exact le_max_left _ _

theorem mem_le_foldl_maxStep {l : List ℝ} {v : ℝ} (hv : v ∈ l) (a : ℝ) :
    v ≤ l.foldl maxStep a := by
  induction l generalizing a with
  | nil => cases hv
  | cons w t ih =>
    rw [List.foldl_cons]
    rcases List.mem_cons.mp hv with h | h
    · subst h
      refine le_trans ?_ (le_foldl_maxStep t (maxStep a v))
      rw [maxStep_eq_max]
      exact le_max_right _ _
    · exact ih h _

theorem foldl_maxStep_mem_or_init (l : List ℝ) (a : ℝ) :
    l.foldl maxStep a = a ∨ l.foldl maxStep a ∈ l := by
  induction l generalizing a with
  | nil => left; rfl
  | cons v t ih =>
    rw [List.foldl_cons]
    rcases ih (maxStep a v) with h | h
    · rw [h, maxStep_eq_max]
      rcases max_choice a v with h2 | h2
      · left; exact h2
      · right; rw [h2]; exact List.mem_cons_self _ _
    · right; exact List.mem_cons_of_mem _ h

/-- Every contribution produced by the reassignment loop carries a
clamped value and a cell index whose bin component is at least 3 and
below `numBins`. -/
theorem reassignContribs_sound (samples : List ℝ) (ctx : FFTContext)
    (hop : ℕ) (wt : WindowType) (zp : ℕ) (g r : ℝ) (nF nB : ℕ)
    {c : ℕ × ℝ}
    (hc : c ∈ reassignContribs samples ctx hop wt zp g r nF nB) :
    (∃ v : ℝ, c.2 = clamp01 v) ∧ 3 ≤ c.1 % nB ∧ c.1 % nB < nB ∧
      c.1 < nF * nB := by
  unfold reassignContribs at hc
  rcases List.mem_filterMap.mp hc with ⟨p, hp, hsome⟩
  unfold contribAt at hsome
  by_cases hskip : magSqAt samples ctx hop wt zp p.1 p.2 < 1e-20
  · rw [if_pos hskip] at hsome; cases hsome
  rw [if_neg hskip] at hsome
  by_cases hb : 3 ≤ reassignedBinAt samples ctx hop wt zp p.1 p.2 ∧
      reassignedBinAt samples ctx hop wt zp p.1 p.2 < (nB : ℤ) ∧
      0 ≤ reassignedFrameAt samples ctx hop wt zp p.1 p.2 ∧
      reassignedFrameAt samples ctx hop wt zp p.1 p.2 < (nF : ℤ)
  · rw [if_pos hb] at hsome
    obtain ⟨hb1, hb2, hb3, hb4⟩ := hb
    have hcval : c = ((reassignedFrameAt samples ctx hop wt zp p.1
        p.2).toNat * nB + (reassignedBinAt samples ctx hop wt zp p.1
        p.2).toNat, reValueAt samples ctx hop wt zp g r p.1 p.2) := by
      exact (Option.some.injEq _ _).mp hsome.symm
    have hrb : (reassignedBinAt samples ctx hop wt zp p.1 p.2).toNat < nB := by
      omega
    have hrb3 : 3 ≤ (reassignedBinAt samples ctx hop wt zp p.1
        p.2).toNat := by omega
    have hrf : (reassignedFrameAt samples ctx hop wt zp p.1 p.2).toNat <
        nF := by omega
    constructor
    · refine ⟨(magnitudeToDb (Real.sqrt (magSqAt samples ctx hop wt zp
        p.1 p.2) / (((ctx.size : ℝ) * WINDOW_COHERENT_GAIN wt) / 2)) -
        (g - r)) / r, ?_⟩
      rw [hcval]
      rfl
    constructor
    · rw [hcval]
      simp only [Nat.mul_add_mod', Nat.mod_eq_of_lt hrb]
      exact hrb3
    constructor
    · rw [hcval]
      simp only [Nat.mul_add_mod', Nat.mod_eq_of_lt hrb]
      exact hrb
    · rw [hcval]
      simp only []
      calc (reassignedFrameAt samples ctx hop wt zp p.1 p.2).toNat * nB +
            (reassignedBinAt samples ctx hop wt zp p.1 p.2).toNat
          < (reassignedFrameAt samples ctx hop wt zp p.1 p.2).toNat * nB +
            nB := by omega
        _ = ((reassignedFrameAt samples ctx hop wt zp p.1 p.2).toNat + 1) *
            nB := by ring
        _ ≤ nF * nB := Nat.mul_le_mul_right _ (by omega)
  · rw [if_neg hb] at hsome; cases hsome

/-- The accumulator cell is the `maxStep` fold over the values mapped to
it, starting from 0. -/
theorem reassignAccum_eq_fold (samples : List ℝ) (ctx : FFTContext)
    (hop : ℕ) (wt : WindowType) (zp : ℕ) (g r : ℝ) (nF nB i : ℕ) :
    reassignAccum samples ctx hop wt zp g r nF nB i =
      (cellValues i (reassignContribs samples ctx hop wt zp g r nF
        nB)).foldl maxStep 0 := by
  unfold reassignAccum
  exact foldl_reassignStep_apply _ _ _

theorem reassignAccum_mem_Icc (samples : List ℝ) (ctx : FFTContext)
    (hop : ℕ) (wt : WindowType) (zp : ℕ) (g r : ℝ) (nF nB i : ℕ) :
    reassignAccum samples ctx hop wt zp g r nF nB i ∈
      Set.Icc (0 : ℝ) 1 := by
  rw [reassignAccum_eq_fold]
  constructor
  · exact le_foldl_maxStep _ 0
  · rcases foldl_maxStep_mem_or_init
      (cellValues i (reassignContribs samples ctx hop wt zp g r nF nB))
      0 with h | h
    · rw [h]; exact zero_le_one
    · rcases mem_cellValues h with ⟨c, hc, _, hval⟩
      have := reassignContribs_sound samples ctx hop wt zp g r nF nB hc
      rcases this.1 with ⟨v, hv⟩
      rw [← hval, hv]
      exact clamp01_le_one v

/-- Cells in the first three bins of a frame receive no contribution. -/
theorem reassignAccum_dc_zero (samples : List ℝ) (ctx : FFTContext)
    (hop : ℕ) (wt : WindowType) (zp : ℕ) (g r : ℝ) (nF nB i : ℕ)
    (hdc : i % nB < 3) :
    reassignAccum samples ctx hop wt zp g r nF nB i = 0 := by
  rw [reassignAccum_eq_fold]
  have hempty : cellValues i (reassignContribs samples ctx hop wt zp g r
      nF nB) = [] := by
    have hfil : (reassignContribs samples ctx hop wt zp g r nF
        nB).filter (fun c => c.1 == i) = [] := by
      rw [List.filter_eq_nil_iff]
      intro c hc hbeq
      have hi : c.1 = i := by simpa using hbeq
      have := (reassignContribs_sound samples ctx hop wt zp g r nF nB
        hc).2.1
      rw [hi] at this
      omega
    unfold cellValues
    rw [hfil]
    rfl
  rw [hempty]
  rfl

/-! ## Claim C1: matrix entries lie in [0,1]; bins 0-2 are forced to 0 -/

theorem stdEntry_mem_Icc (samples : List ℝ) (ctx : FFTContext) (hop : ℕ)
    (wt : WindowType) (zp : ℕ) (g r : ℝ) (frame bin : ℕ) :
    stdEntry samples ctx hop wt zp g r frame bin ∈ Set.Icc (0 : ℝ) 1 := by
  unfold stdEntry
  split
  · exact ⟨le_refl 0, zero_le_one⟩
  · exact clamp01_mem _

theorem stdEntry_dc_zero (samples : List ℝ) (ctx : FFTContext) (hop : ℕ)
    (wt : WindowType) (zp : ℕ) (g r : ℝ) (frame bin : ℕ) (h : bin < 3) :
    stdEntry samples ctx hop wt zp g r frame bin = 0 := by
  unfold stdEntry
  rw [if_pos h]

theorem stdSpectrogramData_getD (samples : List ℝ) (ctx : FFTContext)
    (hop : ℕ) (wt : WindowType) (zp : ℕ) (g r : ℝ) (i : ℕ)
    (hi : i < (numFramesInt samples.length (windowSizeOf ctx.size zp)
      hop).toNat * numBinsOf ctx.size) :
    (stdSpectrogramData samples ctx hop wt zp g r).getD i 0 =
      stdEntry samples ctx hop wt zp g r (i / numBinsOf ctx.size)
        (i % numBinsOf ctx.size) := by
  unfold stdSpectrogramData
  rw [getD_ofFn]
  rw [dif_pos hi]

theorem reassignedSpectrogramData_getD (samples : List ℝ)
    (ctx : FFTContext) (hop : ℕ) (wt : WindowType) (zp : ℕ) (g r : ℝ)
    (i : ℕ)
    (hi : i < (numFramesInt samples.length (windowSizeOf ctx.size zp)
      hop).toNat * numBinsOf ctx.size) :
    (reassignedSpectrogramData samples ctx hop wt zp g r).getD i 0 =
      reassignAccum samples ctx hop wt zp g r
        (numFramesInt samples.length (windowSizeOf ctx.size zp)
          hop).toNat (numBinsOf ctx.size) i := by
  unfold reassignedSpectrogramData
  rw [getD_ofFn]
  rw [dif_pos hi]

/-- Claim C1: for every generation call that succeeds (`numFrames > 0`),
under both the standard and the reassignment algorithm every entry of
the produced matrix lies in `[0, 1]`, and in every frame the entries at
bins 0, 1 and 2 are exactly 0. -/
theorem matrix_entries_in_unit_interval (samples : List ℝ)
    (ctx : FFTContext) (hop : ℕ) (wt : WindowType) (zp : ℕ) (g r : ℝ)
    (hpos : 0 < numFramesInt samples.length (windowSizeOf ctx.size zp)
      hop) :
    ∀ i < (numFramesInt samples.length (windowSizeOf ctx.size zp)
        hop).toNat * numBinsOf ctx.size,
      ((stdSpectrogramData samples ctx hop wt zp g r).getD i 0 ∈
          Set.Icc (0 : ℝ) 1 ∧
        (reassignedSpectrogramData samples ctx hop wt zp g r).getD i 0 ∈
          Set.Icc (0 : ℝ) 1) ∧
      (i % numBinsOf ctx.size < 3 →
        (stdSpectrogramData samples ctx hop wt zp g r).getD i 0 = 0 ∧
        (reassignedSpectrogramData samples ctx hop wt zp g r).getD i 0 =
          0) := by
  intro i hi
  rw [stdSpectrogramData_getD samples ctx hop wt zp g r i hi,
    reassignedSpectrogramData_getD samples ctx hop wt zp g r i hi]
  refine ⟨⟨stdEntry_mem_Icc _ _ _ _ _ _ _ _ _,
    reassignAccum_mem_Icc _ _ _ _ _ _ _ _ _ _⟩, fun hdc => ?_⟩
  exact ⟨stdEntry_dc_zero _ _ _ _ _ _ _ _ _ hdc,
    reassignAccum_dc_zero _ _ _ _ _ _ _ _ _ _ hdc⟩

/-- Witness for C1: a length-8 zero signal with an 8-point FFT context
(one frame succeeds). -/
theorem matrix_entries_in_unit_interval_witness :
    (0 < numFramesInt (List.replicate 8 (0 : ℝ)).length
        (windowSizeOf (8 : ℕ) 1) 2) ∧
      ∀ i < (numFramesInt (List.replicate 8 (0 : ℝ)).length
          (windowSizeOf (8 : ℕ) 1) 2).toNat * numBinsOf (8 : ℕ),
        ((stdSpectrogramData (List.replicate 8 (0 : ℝ))
              ⟨8, true, fun _ => []⟩ 2 .hann 1 0 80).getD i 0 ∈
            Set.Icc (0 : ℝ) 1 ∧
          (reassignedSpectrogramData (List.replicate 8 (0 : ℝ))
              ⟨8, true, fun _ => []⟩ 2 .hann 1 0 80).getD i 0 ∈
            Set.Icc (0 : ℝ) 1) ∧
        (i % numBinsOf (8 : ℕ) < 3 →
          (stdSpectrogramData (List.replicate 8 (0 : ℝ))
              ⟨8, true, fun _ => []⟩ 2 .hann 1 0 80).getD i 0 = 0 ∧
          (reassignedSpectrogramData (List.replicate 8 (0 : ℝ))
              ⟨8, true, fun _ => []⟩ 2 .hann 1 0 80).getD i 0 = 0) := by
  have hlen : (List.replicate 8 (0 : ℝ)).length = 8 := by simp
  have hpos : 0 < numFramesInt (List.replicate 8 (0 : ℝ)).length
      (windowSizeOf (8 : ℕ) 1) 2 := by
    rw [hlen]; decide
  exact ⟨hpos, matrix_entries_in_unit_interval (List.replicate 8 (0 : ℝ))
    ⟨8, true, fun _ => []⟩ 2 .hann 1 0 80 hpos⟩

/-! ## Claim C5: reassigned cells hold the max of their contributions -/

theorem le_foldl_reassignStep (l : List (ℕ × ℝ)) (acc : ℕ → ℝ) (i : ℕ) :
    acc i ≤ (l.foldl reassignStep acc) i := by
  induction l generalizing acc with
  | nil => exact le_refl _
  | cons c t ih =>
    rw [List.foldl_cons]
    exact le_trans (reassignStep_le acc c i) (ih (reassignStep acc c))

/-- Claim C5: in the reassignment algorithm each accumulator cell holds the
`maxStep` fold (i.e. the maximum) of all dB-normalized contributions
reassigned to it, `0` when there are none; processing further
contributions never decreases a cell; every contribution is dominated by
the cell's final value; and a cell with at least one contribution ends
exactly at one of its contributions (so it never exceeds the largest
single contribution mapped to it). -/
theorem reassign_cell_holds_max (samples : List ℝ) (ctx : FFTContext)
    (hop : ℕ) (wt : WindowType) (zp : ℕ) (g r : ℝ) (nF nB i : ℕ)
    (vs : List ℝ)
    (hvs : vs = cellValues i
      (reassignContribs samples ctx hop wt zp g r nF nB)) :
    reassignAccum samples ctx hop wt zp g r nF nB i =
      vs.foldl maxStep 0 ∧
    (vs = [] → reassignAccum samples ctx hop wt zp g r nF nB i = 0) ∧
    (∀ v ∈ vs, v ≤ reassignAccum samples ctx hop wt zp g r nF nB i) ∧
    (vs ≠ [] → reassignAccum samples ctx hop wt zp g r nF nB i ∈ vs) ∧
    (∀ c : ℕ × ℝ,
      reassignAccum samples ctx hop wt zp g r nF nB i ≤
        reassignStep (reassignAccum samples ctx hop wt zp g r nF nB) c
          i) ∧
    (∀ extra : List (ℕ × ℝ),
      reassignAccum samples ctx hop wt zp g r nF nB i ≤
        (extra.foldl reassignStep
          (reassignAccum samples ctx hop wt zp g r nF nB)) i) := by
  have hfold := reassignAccum_eq_fold samples ctx hop wt zp g r nF nB i
  have hnonneg : ∀ v ∈ vs, 0 ≤ v := by
    intro v hv
    rw [hvs] at hv
    rcases mem_cellValues hv with ⟨c, hc, _, hval⟩
    rcases (reassignContribs_sound samples ctx hop wt zp g r nF nB
      hc).1 with ⟨w, hw⟩
    rw [← hval, hw]
    exact clamp01_nonneg w
  refine ⟨by rw [hfold, hvs], ?_, ?_, ?_, ?_, ?_⟩
  · intro hnil
    rw [hfold, ← hvs, hnil]
    rfl
  · intro v hv
    rw [hfold, ← hvs]
    exact mem_le_foldl_maxStep hv 0
  · intro hne
    rw [hfold, ← hvs]
    rcases foldl_maxStep_mem_or_init vs 0 with h | h
    · rcases List.exists_mem_of_ne_nil vs hne with ⟨w, hw⟩
      have hw0 : w ≤ 0 := by
        have := mem_le_foldl_maxStep hw (0 : ℝ)
        rw [h] at this
        exact this
      have : w = 0 := le_antisymm hw0 (hnonneg w hw)
      rw [h, ← this]
      exact hw
    · exact h
  · intro c
    exact reassignStep_le _ c i
  · intro extra
    exact le_foldl_reassignStep extra _ i

/-- Witness for C5: a context whose transform returns an all-zero
spectrum produces no contributions, so every cell is 0. -/
theorem reassign_cell_holds_max_witness :
    ([] = cellValues 0
      (reassignContribs (List.replicate 8 (0 : ℝ))
        ⟨8, true, fun _ => []⟩ 2 .hann 1 0 80 1 5)) ∧
    reassignAccum (List.replicate 8 (0 : ℝ)) ⟨8, true, fun _ => []⟩ 2
      .hann 1 0 80 1 5 0 = 0 := by
  have hmag : ∀ f b : ℕ, magSqAt (List.replicate 8 (0 : ℝ))
      ⟨8, true, fun _ => []⟩ 2 .hann 1 f b = 0 := by
    intro f b
    unfold magSqAt reFFTOut runFFT
    simp
  have hcontribs : reassignContribs (List.replicate 8 (0 : ℝ))
      ⟨8, true, fun _ => []⟩ 2 .hann 1 0 80 1 5 = [] := by
    unfold reassignContribs
    rw [List.filterMap_eq_nil_iff]
    intro p hp
    unfold contribAt
    rw [if_pos]
    rw [hmag p.1 p.2]
    norm_num
  have hvs : ([] : List ℝ) = cellValues 0
      (reassignContribs (List.replicate 8 (0 : ℝ))
        ⟨8, true, fun _ => []⟩ 2 .hann 1 0 80 1 5) := by
    rw [hcontribs]
    rfl
  refine ⟨hvs, ?_⟩
  exact (reassign_cell_holds_max (List.replicate 8 (0 : ℝ))
    ⟨8, true, fun _ => []⟩ 2 .hann 1 0 80 1 5 0 [] hvs).2.1 rfl

/-! ## Claim C2: the hop-size cap -/

/-- Claim C2 counterexample: with `numSamples = 18`, `windowSize = 8`, a
user hop of 1 and `targetWidth = 5`, the user hop would give 11 frames,
the policy raises the hop only to 2, and the generation then produces 6
frames — more than `targetWidth`. -/
theorem hop_cap_counterexample :
    (5 : ℤ) < numFramesInt 18 8 1 ∧
    effectiveHop 18 8 1 (some 5) = 2 ∧
    ¬ numFramesInt 18 8 (effectiveHop 18 8 1 (some 5)) ≤ 5 := by
  refine ⟨by decide, by decide, by decide⟩

/-- Claim C2 amended: when a positive `targetWidth` is given and the user
hop would produce more frames than it, the generator raises the hop to
`max(userHop, floor((numSamples - windowSize) / max(1, targetWidth - 1)))`;
the hop never drops below the user's, and the resulting frame count is
at most `2 * max(1, targetWidth - 1)` — but it may exceed `targetWidth`
itself. -/
theorem hop_cap_amended (len ws userHop tw : ℕ) (huh : 1 ≤ userHop)
    (htw : 0 < tw) (htrig : (tw : ℤ) < numFramesInt len ws userHop) :
    effectiveHop len ws userHop (some tw) =
      (max (userHop : ℤ)
        (Int.fdiv ((len : ℤ) - (ws : ℤ))
          (max 1 ((tw : ℤ) - 1)))).toNat ∧
    userHop ≤ effectiveHop len ws userHop (some tw) ∧
    numFramesInt len ws (effectiveHop len ws userHop (some tw)) ≤
      2 * max 1 ((tw : ℤ) - 1) := by
  have huhZ : (0 : ℤ) < (userHop : ℤ) := by exact_mod_cast huh
  set D : ℤ := (len : ℤ) - (ws : ℤ) with hD
  set k : ℤ := max 1 ((tw : ℤ) - 1) with hk
  have hk1 : 1 ≤ k := le_max_left _ _
  have hktw : k ≤ (tw : ℤ) := by
    rw [hk]
    rcases max_choice 1 ((tw : ℤ) - 1) with h | h <;> rw [h] <;> omega
  -- the trigger rewritten through `ediv`
  have htrig2 : (tw : ℤ) ≤ D / (userHop : ℤ) := by
    unfold numFramesInt at htrig
    rw [Int.fdiv_eq_ediv _ (le_of_lt huhZ), ← hD] at htrig
    omega
  have hDtw : (tw : ℤ) * (userHop : ℤ) ≤ D :=
    (Int.le_ediv_iff_mul_le huhZ).mp htrig2
  have hDpos : (tw : ℤ) ≤ D := by nlinarith
  have hDk : k ≤ D := le_trans hktw hDpos
  have hkpos : (0 : ℤ) < k := by omega
  have hm1 : 1 ≤ D / k := (Int.le_ediv_iff_mul_le hkpos).mpr (by omega)
  have heff : effectiveHop len ws userHop (some tw) =
      (max (userHop : ℤ) (Int.fdiv D k)).toNat := by
    rw [hD, hk]
    simp only [effectiveHop, htw, if_true, htrig, if_pos]
  have hfdk : Int.fdiv D k = D / k := Int.fdiv_eq_ediv _ (le_of_lt hkpos)
  refine ⟨heff, userHop_le_effectiveHop _ _ _ _, ?_⟩
  -- the effective hop as an integer
  have hhopval : ((effectiveHop len ws userHop (some tw)) : ℤ) =
      max (userHop : ℤ) (D / k) := by
    rw [heff, hfdk]
    rw [Int.toNat_of_nonneg (by omega)]
  have hhoppos : (0 : ℤ) < ((effectiveHop len ws userHop (some tw)) : ℤ) := by
    rw [hhopval]; omega
  have hhopge : D / k ≤ ((effectiveHop len ws userHop (some tw)) : ℤ) := by
    rw [hhopval]; exact le_max_right _ _
  -- D < 2 * k * (D / k) since D = k*(D/k) + (D % k) and D % k < k ≤ k*(D/k)
  have hsplit := Int.ediv_add_emod D k
  have hrlt : D % k < k := Int.emod_lt_of_pos D hkpos
  have hrnn : 0 ≤ D % k := Int.emod_nonneg D (by omega)
  have hklem : k ≤ k * (D / k) := le_mul_of_one_le_right (by omega) hm1
  have hDlt : D < 2 * (k * (D / k)) := by omega
  have hDlt2 : D < 2 * k * ((effectiveHop len ws userHop (some tw)) : ℤ) := by
    calc D < 2 * (k * (D / k)) := hDlt
      _ ≤ 2 * (k * ((effectiveHop len ws userHop (some tw)) : ℤ)) := by
          have := mul_le_mul_of_nonneg_left hhopge (by omega : (0:ℤ) ≤ k)
          omega
      _ = 2 * k * ((effectiveHop len ws userHop (some tw)) : ℤ) := by ring
  unfold numFramesInt
  rw [Int.fdiv_eq_ediv _ (le_of_lt hhoppos), ← hD]
  have hf : D / ((effectiveHop len ws userHop (some tw)) : ℤ) < 2 * k :=
    (Int.ediv_lt_iff_lt_mul hhoppos).mpr (by nlinarith [hDlt2])
  omega

/-- Witness for C2 (amended) at the counterexample's numbers. -/
theorem hop_cap_amended_witness :
    (1 ≤ 1 ∧ 0 < 5 ∧ (5 : ℤ) < numFramesInt 18 8 1) ∧
    effectiveHop 18 8 1 (some 5) =
      (max ((1 : ℕ) : ℤ)
        (Int.fdiv ((18 : ℤ) - (8 : ℤ)) (max 1 ((5 : ℤ) - 1)))).toNat ∧
    1 ≤ effectiveHop 18 8 1 (some 5) ∧
    numFramesInt 18 8 (effectiveHop 18 8 1 (some 5)) ≤
      2 * max 1 ((5 : ℤ) - 1) := by
  refine ⟨⟨le_refl 1, by omega, by decide⟩, ?_⟩
  have h := hop_cap_amended 18 8 1 5 (le_refl 1) (by omega) (by decide)
  exact_mod_cast h

/-! ## Claim C9: output dimensions of `renderToImageData` -/

/-- A 169-frame, 513-bin spectrogram for the C9 failing input. -/
noncomputable def c9Spectrogram : SpectrogramData :=
  { data := List.replicate (169 * 513) (0 : ℝ)
    numFrames := 169
    numBins := 513
    fftSize := 1024
    windowSize := 1024
    hopSize := 256
    sampleRate := 44100
    duration := 1 }

/-- A render call explicitly requesting a 1000 × 500 output image. -/
noncomputable def c9Options : RenderOptions :=
  { spectrogram := c9Spectrogram
    outputWidth := some 1000
    outputHeight := some 500 }

/-- Claim C9 (failing input): `renderToImageData` never reads
`outputWidth` / `outputHeight`; the returned buffer is always
`numFrames × numBins` (with 4 bytes per pixel).  At the failing input —
`outputWidth = 1000`, `outputHeight = 500` on a 169 × 513 spectrogram —
the image comes back 169 × 513, contradicting the requested size. -/
theorem renderToImageData_ignores_output_dims :
    (∀ options : RenderOptions,
      (renderToImageData options).width = options.spectrogram.numFrames ∧
      (renderToImageData options).height = options.spectrogram.numBins ∧
      (renderToImageData options).data.length =
        options.spectrogram.numFrames * options.spectrogram.numBins *
          4) ∧
    c9Options.outputWidth = some 1000 ∧
    c9Options.outputHeight = some 500 ∧
    (renderToImageData c9Options).width = 169 ∧
    (renderToImageData c9Options).height = 513 ∧
    (renderToImageData c9Options).data.length = 169 * 513 * 4 ∧
    (renderToImageData c9Options).width ≠ 1000 ∧
    (renderToImageData c9Options).height ≠ 500 := by
  have hgen : ∀ options : RenderOptions,
      (renderToImageData options).width = options.spectrogram.numFrames ∧
      (renderToImageData options).height = options.spectrogram.numBins ∧
      (renderToImageData options).data.length =
        options.spectrogram.numFrames * options.spectrogram.numBins *
          4 := by
    intro options
    refine ⟨rfl, rfl, ?_⟩
    unfold renderToImageData
    simp [List.length_ofFn]
  refine ⟨hgen, rfl, rfl, ?_, ?_, ?_, ?_, ?_⟩
  · exact (hgen c9Options).1
  · exact (hgen c9Options).2.1
  · exact (hgen c9Options).2.2
  · rw [(hgen c9Options).1]; decide
  · rw [(hgen c9Options).2.1]; decide

/-! ## Claim C8: "max" downsampling dominates nearest sampling -/

theorem jsToInt32_of_nonneg_lt {x : ℝ} (h0 : 0 ≤ x) (hx : x < 2 ^ 31) :
    jsToInt32 x = ⌊x⌋ := by
  unfold jsToInt32
  rw [jsTrunc_of_nonneg h0]
  apply Int.bmod_eq_self_of_abs_lt
  have h1 : 0 ≤ ⌊x⌋ := Int.floor_nonneg.mpr h0
  have h2 : (⌊x⌋ : ℝ) ≤ x := Int.floor_le x
  have h3 : (⌊x⌋ : ℝ) < ((2 ^ 31 : ℤ) : ℝ) := by
    push_cast
    linarith
  have h4 : ⌊x⌋ < 2 ^ 31 := by exact_mod_cast h3
  omega

theorem foldl_scan_ge_mem (js : List ℕ) (spectrum : List ℝ) (init : ℝ)
    {j : ℕ} (hj : j ∈ js) :
    spectrum.getD j 0 ≤ js.foldl
      (fun a j => let val := spectrum.getD j 0;
        if val > a then val else a) init := by
  have h1 : js.foldl (fun a j => let val := spectrum.getD j 0;
      if val > a then val else a) init =
      (js.map fun j => spectrum.getD j 0).foldl maxStep init := by
    rw [List.foldl_map]
    rfl
  rw [h1]
  exact mem_le_foldl_maxStep
    (List.mem_map_of_mem (fun j => spectrum.getD j 0) hj) init

theorem init_le_foldl_scan (js : List ℕ) (spectrum : List ℝ)
    (init : ℝ) :
    init ≤ js.foldl (fun a j => let val := spectrum.getD j 0;
      if val > a then val else a) init := by
  have h1 : js.foldl (fun a j => let val := spectrum.getD j 0;
      if val > a then val else a) init =
      (js.map fun j => spectrum.getD j 0).foldl maxStep init := by
    rw [List.foldl_map]
    rfl
  rw [h1]
  exact le_foldl_maxStep _ init

/-- Claim C8: whenever the covered (clamped) source range of a display bin
contains the clamped nearest source-bin index, the value computed in
"max" downsample mode is at least the plain nearest sample at the same
display bin. -/
theorem max_mode_ge_nearest (spectrum freqMapping : List ℝ)
    (displayBins i : ℕ) (interpolation : InterpolationMode)
    (hlen : 1 ≤ spectrum.length) (hsmall : spectrum.length < 2 ^ 31)
    (hlo : (srcRangeClamped spectrum.length freqMapping displayBins i).1 ≤
      ((clampIdx spectrum.length
        (jsRound (freqMapping.getD i 0)) : ℤ) : ℝ))
    (hhi : ((clampIdx spectrum.length
        (jsRound (freqMapping.getD i 0)) : ℤ) : ℝ) ≤
      (srcRangeClamped spectrum.length freqMapping displayBins i).2) :
    sampleSpectrum spectrum (freqMapping.getD i 0) .nearest ≤
      remapAt spectrum freqMapping displayBins .max interpolation i := by
  set n : ℤ := clampIdx spectrum.length (jsRound (freqMapping.getD i 0))
    with hn
  set r := srcRangeClamped spectrum.length freqMapping displayBins i
    with hr
  have hn0 : 0 ≤ n := le_max_left _ _
  have hnlt : n ≤ (spectrum.length : ℤ) - 1 := by
    rw [hn]
    unfold clampIdx
    have := min_le_left ((spectrum.length : ℤ) - 1)
      (jsRound (freqMapping.getD i 0))
    omega
  -- the clamped range is inside [0, specLen - 1]
  have hr1nn : 0 ≤ r.1 := by
    rw [hr]
    unfold srcRangeClamped
    simp only []
    split
    · exact le_refl 0
    · linarith [not_lt.mp (by assumption)]
  have hr2le : r.2 ≤ (spectrum.length : ℝ) - 1 := by
    rw [hr]
    unfold srcRangeClamped
    simp only []
    split
    · exact le_refl _
    · linarith [not_lt.mp (by assumption)]
  -- the integer loop bounds
  have hbinLow : jsToInt32 r.1 = ⌊r.1⌋ := by
    apply jsToInt32_of_nonneg_lt hr1nn
    have : ((spectrum.length : ℝ)) < 2 ^ 31 := by exact_mod_cast hsmall
    have hnR : ((n : ℤ) : ℝ) ≤ (spectrum.length : ℝ) - 1 := by
      exact_mod_cast hnlt
    linarith
  have hbinHigh : jsToInt32 (r.2 + 1) = ⌊r.2⌋ + 1 := by
    have h0 : (0 : ℝ) ≤ r.2 + 1 := by
      have : ((n : ℤ) : ℝ) ≥ 0 := by exact_mod_cast hn0
      linarith
    have hup : r.2 + 1 < 2 ^ 31 := by
      have : ((spectrum.length : ℝ)) < 2 ^ 31 := by exact_mod_cast hsmall
      linarith
    rw [jsToInt32_of_nonneg_lt h0 hup]
    rw [show r.2 + 1 = r.2 + (1 : ℤ) by push_cast; ring]
    exact Int.floor_add_int r.2 1
  have hlown : ⌊r.1⌋ ≤ n := by
    have := Int.floor_le_floor (α := ℝ) hlo
    rwa [Int.floor_intCast] at this
  have hnhigh : n ≤ ⌊r.2⌋ := by
    have := Int.floor_le_floor (α := ℝ) hhi
    rwa [Int.floor_intCast] at this
  -- the max branch is taken
  have hcond : ¬ (jsToInt32 (r.2 + 1) ≤ jsToInt32 r.1 ∨
      DownsampleMode.max = DownsampleMode.nearest) := by
    rw [hbinLow, hbinHigh]
    push_neg
    exact ⟨by omega, by decide⟩
  -- the nearest index is scanned
  have hmem : n.toNat ∈ scanIdxs spectrum.length freqMapping displayBins
      i := by
    unfold scanIdxs
    simp only []
    rw [← hr, hbinLow, hbinHigh]
    rw [List.mem_range'_1]
    have hfl : 0 ≤ ⌊r.1⌋ := Int.floor_nonneg.mpr hr1nn
    refine ⟨?_, ?_⟩ <;> omega
  -- conclude through the fold
  have hnearest : sampleSpectrum spectrum (freqMapping.getD i 0)
      .nearest = spectrum.getD n.toNat 0 := rfl
  rw [hnearest]
  unfold remapAt
  rw [← hr]
  rw [if_neg hcond]
  rw [if_pos rfl]
  exact foldl_scan_ge_mem _ spectrum _ hmem

/-- Witness for C8: a 3-bin spectrum, identity-like mapping, display
bin 1, whose covered range [0.5, 1.5] contains the nearest index 1. -/
theorem max_mode_ge_nearest_witness :
    (1 ≤ ([0, 5, 1] : List ℝ).length ∧
      ([0, 5, 1] : List ℝ).length < 2 ^ 31 ∧
      (srcRangeClamped ([0, 5, 1] : List ℝ).length
          ([0, 1, 2] : List ℝ) 3 1).1 ≤
        ((clampIdx ([0, 5, 1] : List ℝ).length
          (jsRound (([0, 1, 2] : List ℝ).getD 1 0)) : ℤ) : ℝ) ∧
      ((clampIdx ([0, 5, 1] : List ℝ).length
          (jsRound (([0, 1, 2] : List ℝ).getD 1 0)) : ℤ) : ℝ) ≤
        (srcRangeClamped ([0, 5, 1] : List ℝ).length
          ([0, 1, 2] : List ℝ) 3 1).2) ∧
    sampleSpectrum ([0, 5, 1] : List ℝ) (([0, 1, 2] : List ℝ).getD 1 0)
        .nearest ≤
      remapAt ([0, 5, 1] : List ℝ) ([0, 1, 2] : List ℝ) 3 .max .linear
        1 := by
  have hget : (([0, 1, 2] : List ℝ).getD 1 0) = 1 := by
    simp [List.getD]
  have hround : jsRound (([0, 1, 2] : List ℝ).getD 1 0) = 1 := by
    rw [hget]
    unfold jsRound
    norm_num
  have hclamp : clampIdx ([0, 5, 1] : List ℝ).length
      (jsRound (([0, 1, 2] : List ℝ).getD 1 0)) = 1 := by
    rw [hround]
    unfold clampIdx
    simp
  have hrange : srcRangeClamped ([0, 5, 1] : List ℝ).length
      ([0, 1, 2] : List ℝ) 3 1 = (0.5, 1.5) := by
    unfold srcRangeClamped srcRangeRaw
    norm_num [List.getD]
  have hlo : (srcRangeClamped ([0, 5, 1] : List ℝ).length
      ([0, 1, 2] : List ℝ) 3 1).1 ≤
      ((clampIdx ([0, 5, 1] : List ℝ).length
        (jsRound (([0, 1, 2] : List ℝ).getD 1 0)) : ℤ) : ℝ) := by
    rw [hrange, hclamp]
    norm_num
  have hhi : ((clampIdx ([0, 5, 1] : List ℝ).length
      (jsRound (([0, 1, 2] : List ℝ).getD 1 0)) : ℤ) : ℝ) ≤
      (srcRangeClamped ([0, 5, 1] : List ℝ).length
        ([0, 1, 2] : List ℝ) 3 1).2 := by
    rw [hrange, hclamp]
    norm_num
  exact ⟨⟨by simp, by simp, hlo, hhi⟩,
    max_mode_ge_nearest ([0, 5, 1] : List ℝ) ([0, 1, 2] : List ℝ) 3 1
      .linear (by simp) (by simp) hlo hhi⟩

/-! ## Claim C4: rounding of reassigned coordinates -/

theorem jsToInt32_of_neg_gt {x : ℝ} (hx : x < 0) (hb : -(2 ^ 31) < x) :
    jsToInt32 x = ⌈x⌉ := by
  unfold jsToInt32
  rw [jsTrunc_of_neg hx]
  apply Int.bmod_eq_self_of_abs_lt
  have h1 : ⌈x⌉ ≤ 0 := Int.ceil_le.mpr (by exact_mod_cast le_of_lt hx)
  have h2 : x ≤ (⌈x⌉ : ℝ) := Int.le_ceil x
  have h3 : ((-(2 ^ 31) : ℤ) : ℝ) < (⌈x⌉ : ℝ) := by
    push_cast
    linarith
  have h4 : -(2 ^ 31) < ⌈x⌉ := by exact_mod_cast h3
  omega

/-- The coefficient vector `P` of the C4 transform (output =
`input[0] * P + Q`). -/
noncomputable def c4P : Fin 10 → ℝ := fun k =>
  if k = 6 then 1 else if k = 7 then -(1.3 * Real.pi) else 0

/-- The offset vector `Q` of the C4 transform. -/
noncomputable def c4Q : Fin 10 → ℝ := fun k =>
  if k = 7 then 1.3 * Real.pi else 0

/-- A conforming 8-point transform context for the C4 instance: the
output buffer depends linearly on the first input sample. -/
noncomputable def c4Ctx : FFTContext :=
  ⟨8, true, fun l => List.ofFn fun k : Fin 10 =>
    l.getD 0 0 * c4P k + c4Q k⟩

/-- The C4 input signal: a unit impulse. -/
noncomputable def c4Samples : List ℝ := [1, 0, 0, 0, 0, 0, 0, 0]

theorem c4_frameData : frameDataOf c4Samples 2 8 0 = c4Samples := by
  unfold frameDataOf
  rw [show 0 * 2 = 0 from rfl, List.drop_zero]
  exact List.take_of_length_le (by simp [c4Samples])

theorem c4_reFFTOut (v : WindowVariant) (k : ℕ) (hk : k < 10) :
    reFFTOut c4Samples c4Ctx 2 .rectangular 1 v 0 k =
      (reFFTInput c4Samples c4Ctx 2 .rectangular 1 v 0).getD 0 0 *
        c4P ⟨k, hk⟩ + c4Q ⟨k, hk⟩ := by
  unfold reFFTOut runFFT
  rw [show c4Ctx.fft = fun l => List.ofFn fun k : Fin 10 =>
    l.getD 0 0 * c4P k + c4Q k from rfl]
  rw [getD_ofFn, dif_pos hk]

theorem c4_in0 (v : WindowVariant) :
    (reFFTInput c4Samples c4Ctx 2 .rectangular 1 v 0).getD 0 0 =
      (getWindowCoefficients .rectangular 8 v).getD 0 0 := by
  unfold reFFTInput
  rw [if_neg (by omega)]
  rw [show windowSizeOf c4Ctx.size 1 = 8 from rfl]
  rw [c4_frameData]
  unfold applyWindowCoefficients
  rw [getD_ofFn, dif_pos (by simp [c4Samples])]
  rw [show c4Samples.get ⟨0, by simp [c4Samples]⟩ = 1 from rfl]
  ring

theorem c4_coeff_standard :
    (getWindowCoefficients WindowType.rectangular 8 .standard).getD 0 0 =
      1 := by
  unfold getWindowCoefficients
  rw [getD_ofFn, dif_pos (by omega)]
  rfl

theorem c4_coeff_derivative :
    (getWindowCoefficients WindowType.rectangular 8 .derivative).getD 0
      0 = 0 := by
  unfold getWindowCoefficients
  rw [getD_ofFn, dif_pos (by omega)]
  rfl

theorem c4_coeff_timeRamped :
    (getWindowCoefficients WindowType.rectangular 8 .timeRamped).getD 0
      0 = -3.5 := by
  unfold getWindowCoefficients
  rw [getD_ofFn, dif_pos (by omega)]
  show WINDOW_TIME_RAMPED .rectangular 0 8 = -3.5
  unfold WINDOW_TIME_RAMPED
  norm_num

theorem c4_Xh6 : reFFTOut c4Samples c4Ctx 2 .rectangular 1 .standard 0 6
    = 1 := by
  rw [c4_reFFTOut .standard 6 (by omega), c4_in0, c4_coeff_standard]
  norm_num [c4P, c4Q, Fin.ext_iff,
    show ((6 : Fin 10) : ℕ) = 6 from rfl,
    show ((7 : Fin 10) : ℕ) = 7 from rfl]

theorem c4_Xh7 : reFFTOut c4Samples c4Ctx 2 .rectangular 1 .standard 0 7
    = 0 := by
  rw [c4_reFFTOut .standard 7 (by omega), c4_in0, c4_coeff_standard]
  norm_num [c4P, c4Q, Fin.ext_iff,
    show ((6 : Fin 10) : ℕ) = 6 from rfl,
    show ((7 : Fin 10) : ℕ) = 7 from rfl]

theorem c4_XDh6 : reFFTOut c4Samples c4Ctx 2 .rectangular 1 .derivative
    0 6 = 0 := by
  rw [c4_reFFTOut .derivative 6 (by omega), c4_in0, c4_coeff_derivative]
  norm_num [c4P, c4Q, Fin.ext_iff,
    show ((6 : Fin 10) : ℕ) = 6 from rfl,
    show ((7 : Fin 10) : ℕ) = 7 from rfl]

theorem c4_XDh7 : reFFTOut c4Samples c4Ctx 2 .rectangular 1 .derivative
    0 7 = 1.3 * Real.pi := by
  rw [c4_reFFTOut .derivative 7 (by omega), c4_in0, c4_coeff_derivative]
  norm_num [c4P, c4Q, Fin.ext_iff,
    show ((6 : Fin 10) : ℕ) = 6 from rfl,
    show ((7 : Fin 10) : ℕ) = 7 from rfl]

theorem c4_XTh6 : reFFTOut c4Samples c4Ctx 2 .rectangular 1 .timeRamped
    0 6 = -3.5 := by
  rw [c4_reFFTOut .timeRamped 6 (by omega), c4_in0, c4_coeff_timeRamped]
  norm_num [c4P, c4Q, Fin.ext_iff,
    show ((6 : Fin 10) : ℕ) = 6 from rfl,
    show ((7 : Fin 10) : ℕ) = 7 from rfl]

theorem c4_magSq : magSqAt c4Samples c4Ctx 2 .rectangular 1 0 3 = 1 := by
  unfold magSqAt
  rw [show 3 * 2 = 6 from rfl, show 3 * 2 + 1 = 7 from rfl]
  rw [c4_Xh6, c4_Xh7]
  norm_num

theorem c4_freqCorrection : freqCorrectionAt c4Samples c4Ctx 2
    .rectangular 1 0 3 = -5.2 := by
  unfold freqCorrectionAt
  rw [show 3 * 2 = 6 from rfl, show 3 * 2 + 1 = 7 from rfl]
  rw [c4_Xh6, c4_Xh7, c4_XDh6, c4_XDh7, c4_magSq]
  rw [show c4Ctx.size = 8 from rfl]
  have hpi := Real.pi_ne_zero
  field_simp
  ring

theorem c4_timeCorrection : timeCorrectionAt c4Samples c4Ctx 2
    .rectangular 1 0 3 = -1.75 := by
  unfold timeCorrectionAt
  rw [show 3 * 2 = 6 from rfl, show 3 * 2 + 1 = 7 from rfl]
  rw [c4_Xh6, c4_Xh7, c4_XTh6, c4_magSq]
  norm_num

/-- Claim C4 counterexample: at a non-skipped bin whose frequency
correction is `-5.2`, the code computes `reassignedBin = -1`
(truncation toward zero of `-1.7`), while round-half-up
`floor(bin + freqCorrection + 0.5)` is `-2`. -/
theorem reassigned_round_counterexample :
    ¬ magSqAt c4Samples c4Ctx 2 .rectangular 1 0 3 < 1e-20 ∧
    reassignedBinAt c4Samples c4Ctx 2 .rectangular 1 0 3 = -1 ∧
    ⌊(3 : ℝ) + freqCorrectionAt c4Samples c4Ctx 2 .rectangular 1 0 3 +
      0.5⌋ = -2 := by
  refine ⟨by rw [c4_magSq]; norm_num, ?_, ?_⟩
  · unfold reassignedBinAt
    rw [c4_freqCorrection]
    rw [show ((3 : ℕ) : ℝ) + -5.2 + 0.5 = -1.7 by norm_num]
    rw [jsToInt32_of_neg_gt (by norm_num) (by norm_num)]
    refine Int.ceil_eq_iff.mpr ⟨by norm_num, by norm_num⟩
  · rw [c4_freqCorrection]
    norm_num

/-- Claim C4 amended: for every frame and non-skipped bin, the reassigned
coordinates are the ToInt32 truncation toward zero of
`bin + freqCorrection + 0.5` and `frame + timeCorrection + 0.5`
(within the 32-bit range): `floor` when the shifted value is
nonnegative — which is exactly round-half-up there — but `ceil` when it
is negative, so for negative corrected values the code differs from
round-half-up. -/
theorem reassigned_round_amended (samples : List ℝ) (ctx : FFTContext)
    (hop : ℕ) (wt : WindowType) (zp : ℕ) (frame bin : ℕ)
    (hskip : ¬ magSqAt samples ctx hop wt zp frame bin < 1e-20)
    (hble : |(bin : ℝ) + freqCorrectionAt samples ctx hop wt zp frame bin
      + 0.5| < 2 ^ 31)
    (hfle : |(frame : ℝ) + timeCorrectionAt samples ctx hop wt zp frame
      bin + 0.5| < 2 ^ 31) :
    reassignedBinAt samples ctx hop wt zp frame bin =
      (if 0 ≤ (bin : ℝ) + freqCorrectionAt samples ctx hop wt zp frame
          bin + 0.5 then
        ⌊(bin : ℝ) + freqCorrectionAt samples ctx hop wt zp frame bin +
          0.5⌋
      else
        ⌈(bin : ℝ) + freqCorrectionAt samples ctx hop wt zp frame bin +
          0.5⌉) ∧
    reassignedFrameAt samples ctx hop wt zp frame bin =
      (if 0 ≤ (frame : ℝ) + timeCorrectionAt samples ctx hop wt zp frame
          bin + 0.5 then
        ⌊(frame : ℝ) + timeCorrectionAt samples ctx hop wt zp frame bin +
          0.5⌋
      else
        ⌈(frame : ℝ) + timeCorrectionAt samples ctx hop wt zp frame bin +
          0.5⌉) := by
  rw [abs_lt] at hble hfle
  constructor
  · unfold reassignedBinAt
    split
    · exact jsToInt32_of_nonneg_lt (by assumption) (by linarith [hble.2])
    · exact jsToInt32_of_neg_gt (by linarith [not_le.mp (by assumption)])
        (by linarith [hble.1])
  · unfold reassignedFrameAt
    split
    · exact jsToInt32_of_nonneg_lt (by assumption) (by linarith [hfle.2])
    · exact jsToInt32_of_neg_gt (by linarith [not_le.mp (by assumption)])
        (by linarith [hfle.1])

/-- Witness for C4 (amended) at the counterexample's transform. -/
theorem reassigned_round_amended_witness :
    (¬ magSqAt c4Samples c4Ctx 2 .rectangular 1 0 3 < 1e-20 ∧
      |(3 : ℝ) + freqCorrectionAt c4Samples c4Ctx 2 .rectangular 1 0 3 +
        0.5| < 2 ^ 31 ∧
      |(0 : ℝ) + timeCorrectionAt c4Samples c4Ctx 2 .rectangular 1 0 3 +
        0.5| < 2 ^ 31) ∧
    reassignedBinAt c4Samples c4Ctx 2 .rectangular 1 0 3 =
      ⌈(3 : ℝ) + freqCorrectionAt c4Samples c4Ctx 2 .rectangular 1 0 3 +
        0.5⌉ := by
  have hskip : ¬ magSqAt c4Samples c4Ctx 2 .rectangular 1 0 3 < 1e-20 := by
    rw [c4_magSq]; norm_num
  have hble : |((3 : ℕ) : ℝ) + freqCorrectionAt c4Samples c4Ctx 2
      .rectangular 1 0 3 + 0.5| < 2 ^ 31 := by
    rw [c4_freqCorrection]; rw [abs_lt]; norm_num
  have hfle : |((0 : ℕ) : ℝ) + timeCorrectionAt c4Samples c4Ctx 2
      .rectangular 1 0 3 + 0.5| < 2 ^ 31 := by
    rw [c4_timeCorrection]; rw [abs_lt]; norm_num
  have h := reassigned_round_amended c4Samples c4Ctx 2 .rectangular 1 0 3
    hskip hble hfle
  have hneg : ¬ (0 : ℝ) ≤ ((3 : ℕ) : ℝ) + freqCorrectionAt c4Samples
      c4Ctx 2 .rectangular 1 0 3 + 0.5 := by
    rw [c4_freqCorrection]; norm_num
  refine ⟨⟨hskip, by exact_mod_cast hble, by exact_mod_cast hfle⟩, ?_⟩
  have h1 := h.1
  rw [if_neg hneg] at h1
  exact_mod_cast h1

/-! ## Claim C7: monotonicity of the frequency mapping -/

theorem displayT_mono (d : ℕ) (hd : 2 ≤ d) {i j : ℕ} (hij : i ≤ j) :
    displayT d i ≤ displayT d j := by
  unfold displayT
  have hden : (0 : ℝ) < (d : ℝ) - 1 := by
    have : (2 : ℝ) ≤ (d : ℝ) := by exact_mod_cast hd
    linarith
  have hijR : (i : ℝ) ≤ (j : ℝ) := by exact_mod_cast hij
  gcongr

/-- Linear interpolation with a nondecreasing parameter between ordered
endpoints is nondecreasing. -/
theorem interp_mono {A B t1 t2 : ℝ} (hAB : A ≤ B) (ht : t1 ≤ t2) :
    A + t1 * (B - A) ≤ A + t2 * (B - A) := by
  nlinarith [mul_le_mul_of_nonneg_right ht (sub_nonneg.mpr hAB)]

theorem hzToMel_mono {x y : ℝ} (hx : 0 < x) (hxy : x ≤ y) :
    hzToMel x ≤ hzToMel y := by
  unfold hzToMel
  have h1 : (0 : ℝ) < 1 + x / 700 := by linarith
  have h2 : 1 + x / 700 ≤ 1 + y / 700 := by linarith
  nlinarith [Real.logb_le_logb_of_le (b := 10) (by norm_num) h1 h2]

theorem melToHz_mono {x y : ℝ} (hxy : x ≤ y) : melToHz x ≤ melToHz y := by
  unfold melToHz
  have := Real.rpow_le_rpow_of_exponent_le (x := (10 : ℝ))
    (by norm_num) (show x / 2595 ≤ y / 2595 by linarith)
  linarith

theorem hzToErb_mono {x y : ℝ} (hx : 0 < x) (hxy : x ≤ y) :
    hzToErb x ≤ hzToErb y := by
  unfold hzToErb
  have h1 : (0 : ℝ) < 1 + 0.00437 * x := by nlinarith
  have h2 : 1 + 0.00437 * x ≤ 1 + 0.00437 * y := by nlinarith
  nlinarith [Real.logb_le_logb_of_le (b := 10) (by norm_num) h1 h2]

theorem erbToHz_mono {x y : ℝ} (hxy : x ≤ y) : erbToHz x ≤ erbToHz y := by
  unfold erbToHz
  have h1 := Real.rpow_le_rpow_of_exponent_le (x := (10 : ℝ))
    (by norm_num)
    ((div_le_div_iff_of_pos_right (show (0 : ℝ) < 21.4 by norm_num)).mpr
      hxy)
  have h2 : (10 : ℝ) ^ (x / 21.4) - 1 ≤ (10 : ℝ) ^ (y / 21.4) - 1 := by
    linarith
  exact (div_le_div_iff_of_pos_right (by norm_num)).mpr h2

theorem hzToBark_mono {x y : ℝ} (hx : 0 ≤ x) (hxy : x ≤ y) :
    hzToBark x ≤ hzToBark y := by
  unfold hzToBark
  have h1 : Real.arctan (0.00076 * x) ≤ Real.arctan (0.00076 * y) :=
    Real.arctan_strictMono.monotone (by nlinarith)
  have hsq : (x / 7500) ^ 2 ≤ (y / 7500) ^ 2 := by
    apply pow_le_pow_left₀ (by positivity)
    linarith
  have h2 : Real.arctan ((x / 7500) ^ 2) ≤ Real.arctan ((y / 7500) ^ 2) :=
    Real.arctan_strictMono.monotone hsq
  linarith

/-- For the four analytic scales the interpolated Hz value is
nondecreasing in the display-bin index. -/
theorem mappingHz_mono (scale : FrequencyScale) (em eM : ℝ)
    (h1 : 1 ≤ em) (hle : em ≤ eM) (d : ℕ) (hd : 2 ≤ d) {i j : ℕ}
    (hij : i ≤ j) (hnotbark : scale ≠ .bark) :
    mappingHz scale em eM d i ≤ mappingHz scale em eM d j := by
  have ht := displayT_mono d hd hij
  have hem : (0 : ℝ) < em := by linarith
  cases scale with
  | linear => exact interp_mono hle ht
  | log =>
    have hlog : Real.logb 10 em ≤ Real.logb 10 eM :=
      Real.logb_le_logb_of_le (by norm_num) hem hle
    exact Real.rpow_le_rpow_of_exponent_le (by norm_num)
      (interp_mono hlog ht)
  | mel =>
    exact melToHz_mono (interp_mono (hzToMel_mono hem hle) ht)
  | bark => exact absurd rfl hnotbark
  | erb =>
    exact erbToHz_mono (interp_mono (hzToErb_mono hem hle) ht)

/-- Degenerate effective range: with `minFreq = 5000 ≤ maxFreq = 6000`
but `sampleRate = 8000` (nyquist 4000), the independent clamps invert
the effective range and the linear mapping decreases: entry 0 is 2.5
and entry 1 is 2.  So `minFreq ≤ maxFreq` alone does not make the
mapping monotone. -/
theorem freq_mapping_monotone_counterexample :
    ((5000 : ℝ) ≤ 6000) ∧ (2 : ℕ) ≥ 2 ∧
    (createFrequencyMapping 3 8000 .linear 2 (some 5000)
        (some 6000)).getD 0 0 = 2.5 ∧
    (createFrequencyMapping 3 8000 .linear 2 (some 5000)
        (some 6000)).getD 1 0 = 2 ∧
    ¬ ((createFrequencyMapping 3 8000 .linear 2 (some 5000)
        (some 6000)).getD 0 0 ≤
      (createFrequencyMapping 3 8000 .linear 2 (some 5000)
        (some 6000)).getD 1 0) := by
  have hmax : max ((some (5000 : ℝ)).getD 20) 1 = 5000 := by
    norm_num
  have hmin : min ((some (6000 : ℝ)).getD ((8000 : ℝ) / 2))
      ((8000 : ℝ) / 2) = 4000 := by
    norm_num
  have h0 : (createFrequencyMapping 3 8000 .linear 2 (some 5000)
      (some 6000)).getD 0 0 = 2.5 := by
    unfold createFrequencyMapping
    rw [getD_ofFn, dif_pos (by omega)]
    rw [hmax, hmin]
    unfold mappingHz displayT
    norm_num
  have h1 : (createFrequencyMapping 3 8000 .linear 2 (some 5000)
      (some 6000)).getD 1 0 = 2 := by
    unfold createFrequencyMapping
    rw [getD_ofFn, dif_pos (by omega)]
    rw [hmax, hmin]
    unfold mappingHz displayT
    norm_num
  refine ⟨by norm_num, le_refl 2, h0, h1, ?_⟩
  rw [h0, h1]
  norm_num

/-- Monotonicity of the mapping under a nonempty effective range
(`max(minFreq,1) ≤ min(maxFreq, nyquist)`), positive sample rate and
`numBins ≥ 1`: the mapping returned by `createFrequencyMapping` is
monotonically nondecreasing for the linear, log, mel and erb scales,
and for the bark scale the interpolated bark-domain arguments handed to
`barkToHz` are nondecreasing.  (Monotonicity of the bark mapping in Hz
additionally requires monotonicity of the 10-step Newton inverse
`barkToHz` over its attainable domain, which is not established
here.) -/
theorem freq_mapping_monotone_amended (numBins : ℕ) (sampleRate : ℝ)
    (displayBins : ℕ) (minFreq maxFreq : Option ℝ) (hnb : 1 ≤ numBins)
    (hsr : 0 < sampleRate) (hdb : 2 ≤ displayBins)
    (heff : max (minFreq.getD 20) 1 ≤
      min (maxFreq.getD (sampleRate / 2)) (sampleRate / 2)) :
    (∀ scale : FrequencyScale, scale ≠ .bark → ∀ i j : ℕ, i ≤ j →
      j < displayBins →
      (createFrequencyMapping numBins sampleRate scale displayBins
        minFreq maxFreq).getD i 0 ≤
      (createFrequencyMapping numBins sampleRate scale displayBins
        minFreq maxFreq).getD j 0) ∧
    (∀ i j : ℕ, i ≤ j →
      hzToBark (max (minFreq.getD 20) 1) + displayT displayBins i *
        (hzToBark (min (maxFreq.getD (sampleRate / 2))
          (sampleRate / 2)) - hzToBark (max (minFreq.getD 20) 1)) ≤
      hzToBark (max (minFreq.getD 20) 1) + displayT displayBins j *
        (hzToBark (min (maxFreq.getD (sampleRate / 2))
          (sampleRate / 2)) - hzToBark (max (minFreq.getD 20) 1))) := by
  have hem1 : (1 : ℝ) ≤ max (minFreq.getD 20) 1 := le_max_right _ _
  constructor
  · intro scale hscale i j hij hj
    have hi : i < displayBins := lt_of_le_of_lt hij hj
    unfold createFrequencyMapping
    rw [getD_ofFn, getD_ofFn, dif_pos hi, dif_pos hj]
    have hmono := mappingHz_mono scale (max (minFreq.getD 20) 1)
      (min (maxFreq.getD (sampleRate / 2)) (sampleRate / 2)) hem1 heff
      displayBins hdb hij hscale
    have hnyq : (0 : ℝ) < sampleRate / 2 := by linarith
    have hnb1 : (0 : ℝ) ≤ (numBins : ℝ) - 1 := by
      have : (1 : ℝ) ≤ (numBins : ℝ) := by exact_mod_cast hnb
      linarith
    gcongr
  · intro i j hij
    exact interp_mono (hzToBark_mono (by linarith) heff)
      (displayT_mono displayBins hdb hij)

/-- Concrete instance of the monotonicity development at `numBins = 3`,
`sampleRate = 8000`, `displayBins = 2`, range 50 - 4000 Hz. -/
theorem freq_mapping_monotone_amended_witness :
    (1 ≤ (3 : ℕ) ∧ (0 : ℝ) < 8000 ∧ 2 ≤ (2 : ℕ) ∧
      max ((some (50 : ℝ)).getD 20) 1 ≤
        min ((some (4000 : ℝ)).getD ((8000 : ℝ) / 2)) ((8000 : ℝ) / 2)) ∧
    (∀ scale : FrequencyScale, scale ≠ .bark → ∀ i j : ℕ, i ≤ j → j < 2 →
      (createFrequencyMapping 3 8000 scale 2 (some 50)
        (some 4000)).getD i 0 ≤
      (createFrequencyMapping 3 8000 scale 2 (some 50)
        (some 4000)).getD j 0) := by
  have heff : max ((some (50 : ℝ)).getD 20) 1 ≤
      min ((some (4000 : ℝ)).getD ((8000 : ℝ) / 2)) ((8000 : ℝ) / 2) := by
    norm_num
  refine ⟨⟨by omega, by norm_num, by omega, heff⟩, ?_⟩
  exact (freq_mapping_monotone_amended 3 8000 2 (some 50) (some 4000)
    (by omega) (by norm_num) (by omega) heff).1

/-! ## Towards claim C6: exactness of the mel and erb round trips

The mel and erb conversions are mutually inverse closed forms, so their
round trips are exact (error 0, in particular within 0.1%).  The bark
inverse is a 10-step Newton iteration on `arctan`; its error over all of
[50, 15000] Hz is not settled here. -/

theorem melToHz_hzToMel {x : ℝ} (hx : 0 < x) : melToHz (hzToMel x) = x := by
  unfold melToHz hzToMel
  rw [mul_div_cancel_left₀ _ (by norm_num : (2595 : ℝ) ≠ 0)]
  rw [Real.rpow_logb (by norm_num) (by norm_num) (by linarith)]
  ring

theorem erbToHz_hzToErb {x : ℝ} (hx : 0 < x) : erbToHz (hzToErb x) = x := by
  unfold erbToHz hzToErb
  rw [mul_div_cancel_left₀ _ (by norm_num : (21.4 : ℝ) ≠ 0)]
  rw [Real.rpow_logb (by norm_num) (by norm_num) (by nlinarith)]
  field_simp

/-- On the claim's range the mel and erb round trips are exact, hence
within any positive relative tolerance. -/
theorem mel_erb_roundtrip_on_range :
    ∀ x : ℝ, 50 ≤ x → x ≤ 15000 →
      melToHz (hzToMel x) = x ∧ erbToHz (hzToErb x) = x ∧
      |melToHz (hzToMel x) - x| ≤ 0.001 * x ∧
      |erbToHz (hzToErb x) - x| ≤ 0.001 * x := by
  intro x h50 _
  have hx : (0 : ℝ) < x := by linarith
  refine ⟨melToHz_hzToMel hx, erbToHz_hzToErb hx, ?_, ?_⟩
  · rw [melToHz_hzToMel hx]
    simp only [sub_self, abs_zero]
    positivity
  · rw [erbToHz_hzToErb hx]
    simp only [sub_self, abs_zero]
    positivity

end Spectro
